import Mathlib

/-!
Verification development for the magNET interpreter: a tree-walking
interpreter for a small scripting language (lexer, Pratt parser,
evaluator).  The definitions below are shallow embeddings of the Python
source files `src/token.py`, `src/lexer.py`, `src/parser.py`,
`src/ast.py`, `src/object.py`, `src/builtins.py` and `src/evaluator.py`.

Modelling conventions:
* Python `int` is `Int`; Python strings are `String` (sources are handled
  as `List Char` for positional indexing).
* The lexer object keeps `_position`, `_read_position` and `_character`
  in sync through `_read_character` (the invariant
  `read_position = position + 1` and `character = source[position]`,
  with `''` when past the end, is established by `__init__` and
  preserved by every mutation), so the state is represented by the
  source plus `position`; `character` and `read_position` are derived.
* Native Python failures (ZeroDivisionError, IndexError, AssertionError)
  and fuel exhaustion are modelled with an `Except Crash` result.
* The Python `Environment` is a dictionary plus an optional outer
  environment, mutated in place; it is modelled as a value threaded
  through evaluation (the store dictionary is an association list whose
  most recent binding comes first).
-/

namespace MagNet

/-- Token kinds, from `src/token.py` (`TokenType`). -/
inductive TokenType where
  | AND | ASSIGN | COMMA | CONST | DIVISION | EQUALS | ELSE | EOF
  | FALSE | FUNCTION | ILLEGAL | GE | GT | IDENT | IF | INT
  | INTERSECTION | LBRACE | LE | LET | LT | LPAREN | MINUS
  | MULTIPLICATION | NEGATION | NOT_EQUALS | OR | PLUS | RBRACE
  | RETURN | RPAREN | SEMICOLON | STRING | TRUE | UNION | VAR | XOR
deriving DecidableEq, Repr

/-- A token is a pair of kind and literal (`src/token.py`, `Token`). -/
structure Token where
  ttype : TokenType
  literal : String
deriving DecidableEq, Repr

/-- Keyword table of `lookup_token_type` in `src/token.py`. -/
def lookupTokenType (literal : String) : TokenType :=
  if literal = "and" then .AND
  else if literal = "const" then .CONST
  else if literal = "else" then .ELSE
  else if literal = "false" then .FALSE
  else if literal = "function" then .FUNCTION
  else if literal = "if" then .IF
  else if literal = "let" then .LET
  else if literal = "or" then .OR
  else if literal = "return" then .RETURN
  else if literal = "true" then .TRUE
  else if literal = "var" then .VAR
  else if literal = "xor" then .XOR
  else .IDENT

/-- Lexer state: the source and the cursor `_position`; `_character`
and `_read_position` are derived via the `_read_character` invariant. -/
structure LexState where
  src : List Char
  pos : Nat
deriving Repr

/-- The current character: `self._character`, with `none` standing for
the empty string Python uses past the end of the source. -/
def charAt (src : List Char) (pos : Nat) : Option Char :=
  src[pos]?

/-- Regex `^[a-zA-Z_]$` of `Lexer._is_letter`. -/
def isLetterChar (c : Char) : Bool :=
  (Char.ofNat 97 ≤ c && c ≤ Char.ofNat 122)
    || (Char.ofNat 65 ≤ c && c ≤ Char.ofNat 90)
    || c = Char.ofNat 95

/-- Regex `^[0-9]+$` of `Lexer._is_number` on a single character. -/
def isDigitChar (c : Char) : Bool :=
  Char.ofNat 48 ≤ c && c ≤ Char.ofNat 57

/-- Accumulate the value of a run of ASCII digits; `none` on any other
character. -/
def parseIntDigits : List Char → Nat → Option Nat
  | [], acc => some acc
  | c :: r, acc =>
    if isDigitChar c then parseIntDigits r (acc * 10 + (c.toNat - 48))
    else none

/-- Regex `^[\s\t]$` used by `Lexer._skip_whitespace` (ASCII whitespace). -/
def isSpaceChar (c : Char) : Bool :=
  c = Char.ofNat 32 || c = Char.ofNat 9 || c = Char.ofNat 10
    || c = Char.ofNat 13 || c = Char.ofNat 11 || c = Char.ofNat 12

/-- The whitespace-skipping loop of `Lexer._skip_whitespace`,
step-indexed by the number of positions left before the end of the
source (each iteration reads a character of the source, so
`src.length - pos` steps always suffice; past the end the character
is empty and the loop stops). -/
def skipWSAux : Nat → List Char → Nat → Nat
  | 0, _, pos => pos
  | k + 1, src, pos =>
    match charAt src pos with
    | some c => if isSpaceChar c then skipWSAux k src (pos + 1) else pos
    | none => pos

/-- `Lexer._skip_whitespace`: the first position at or after `pos`
whose character is not whitespace. -/
def skipWS (src : List Char) (pos : Nat) : Nat :=
  skipWSAux (src.length - pos) src pos

/-- The loop of `Lexer._read_identifier`: advance while the current
character is a letter or a digit (same step-indexing as `skipWSAux`). -/
def identEndAux : Nat → List Char → Nat → Nat
  | 0, _, pos => pos
  | k + 1, src, pos =>
    match charAt src pos with
    | some c => if isLetterChar c || isDigitChar c then identEndAux k src (pos + 1) else pos
    | none => pos

/-- The final position of `Lexer._read_identifier`. -/
def identEnd (src : List Char) (pos : Nat) : Nat :=
  identEndAux (src.length - pos) src pos

/-- The loop of `Lexer._read_number`. -/
def numberEndAux : Nat → List Char → Nat → Nat
  | 0, _, pos => pos
  | k + 1, src, pos =>
    match charAt src pos with
    | some c => if isDigitChar c then numberEndAux k src (pos + 1) else pos
    | none => pos

/-- The final position of `Lexer._read_number`. -/
def numberEnd (src : List Char) (pos : Nat) : Nat :=
  numberEndAux (src.length - pos) src pos

/-- The loop of `Lexer._read_string`: advance while the current
character differs from the opening quote and
`read_position <= len(source)` (when the step index is zero the
position is past the end, so the loop condition is false anyway). -/
def stringEndAux : Nat → List Char → Char → Nat → Nat
  | 0, _, _, pos => pos
  | k + 1, src, q, pos =>
    if charAt src pos ≠ some q ∧ pos + 1 ≤ src.length then
      stringEndAux k src q (pos + 1)
    else pos

/-- The final position of the scan of `Lexer._read_string`. -/
def stringEnd (src : List Char) (q : Char) (pos : Nat) : Nat :=
  stringEndAux (src.length - pos) src q pos

/-- The slice `source[a:b]` used to extract literals. -/
def slice (src : List Char) (a b : Nat) : String :=
  String.mk ((src.drop a).take (b - a))

/-- A single-character literal. -/
def oneChar (c : Char) : String :=
  String.mk [c]

/-- A two-character literal, as built by `_make_two_character_token`. -/
def twoChar (c d : Char) : String :=
  String.mk [c, d]

/-- `Lexer.next_token` from `src/lexer.py`.  The branch order follows the
source; the end-of-input regex `^$` can only match the empty current
character, so it is the `none` case of the classification. -/
def nextToken (st : LexState) : Token × LexState :=
  let p := skipWS st.src st.pos
  match charAt st.src p with
  | none => (⟨.EOF, ""⟩, ⟨st.src, p + 1⟩)
  | some c =>
    if c = Char.ofNat 61 then  -- '='
      if charAt st.src (p + 1) = some (Char.ofNat 61) then
        (⟨.EQUALS, twoChar c (Char.ofNat 61)⟩, ⟨st.src, p + 2⟩)
      else (⟨.ASSIGN, oneChar c⟩, ⟨st.src, p + 1⟩)
    else if c = Char.ofNat 33 then  -- '!'
      if charAt st.src (p + 1) = some (Char.ofNat 61) then
        (⟨.NOT_EQUALS, twoChar c (Char.ofNat 61)⟩, ⟨st.src, p + 2⟩)
      else (⟨.NEGATION, oneChar c⟩, ⟨st.src, p + 1⟩)
    else if c = Char.ofNat 38 then  -- '&'
      if charAt st.src (p + 1) = some (Char.ofNat 38) then
        (⟨.AND, twoChar c (Char.ofNat 38)⟩, ⟨st.src, p + 2⟩)
      else (⟨.INTERSECTION, oneChar c⟩, ⟨st.src, p + 1⟩)
    else if c = Char.ofNat 124 then  -- '|'
      if charAt st.src (p + 1) = some (Char.ofNat 124) then
        (⟨.OR, twoChar c (Char.ofNat 124)⟩, ⟨st.src, p + 2⟩)
      else (⟨.UNION, oneChar c⟩, ⟨st.src, p + 1⟩)
    else if c = Char.ofNat 94 then  -- '^'
      (⟨.XOR, oneChar c⟩, ⟨st.src, p + 1⟩)
    else if c = Char.ofNat 43 then  -- '+'
      (⟨.PLUS, oneChar c⟩, ⟨st.src, p + 1⟩)
    else if c = Char.ofNat 45 then  -- '-'
      (⟨.MINUS, oneChar c⟩, ⟨st.src, p + 1⟩)
    else if c = Char.ofNat 42 then  -- '*'
      (⟨.MULTIPLICATION, oneChar c⟩, ⟨st.src, p + 1⟩)
    else if c = Char.ofNat 47 then  -- '/'
      (⟨.DIVISION, oneChar c⟩, ⟨st.src, p + 1⟩)
    else if c = Char.ofNat 40 then  -- '('
      (⟨.LPAREN, oneChar c⟩, ⟨st.src, p + 1⟩)
    else if c = Char.ofNat 41 then  -- ')'
      (⟨.RPAREN, oneChar c⟩, ⟨st.src, p + 1⟩)
    else if c = Char.ofNat 123 then  -- left brace
      (⟨.LBRACE, oneChar c⟩, ⟨st.src, p + 1⟩)
    else if c = Char.ofNat 125 then  -- right brace
      (⟨.RBRACE, oneChar c⟩, ⟨st.src, p + 1⟩)
    else if c = Char.ofNat 44 then  -- ','
      (⟨.COMMA, oneChar c⟩, ⟨st.src, p + 1⟩)
    else if c = Char.ofNat 34 ∨ c = Char.ofNat 39 then  -- quote characters
      let e := stringEnd st.src c (p + 1)
      (⟨.STRING, slice st.src (p + 1) e⟩, ⟨st.src, e + 1⟩)
    else if c = Char.ofNat 59 then  -- ';'
      (⟨.SEMICOLON, oneChar c⟩, ⟨st.src, p + 1⟩)
    else if c = Char.ofNat 60 then  -- '<'
      if charAt st.src (p + 1) = some (Char.ofNat 61) then
        (⟨.LE, twoChar c (Char.ofNat 61)⟩, ⟨st.src, p + 2⟩)
      else (⟨.LT, oneChar c⟩, ⟨st.src, p + 1⟩)
    else if c = Char.ofNat 62 then  -- '>'
      if charAt st.src (p + 1) = some (Char.ofNat 61) then
        (⟨.GE, twoChar c (Char.ofNat 61)⟩, ⟨st.src, p + 2⟩)
      else (⟨.GT, oneChar c⟩, ⟨st.src, p + 1⟩)
    else if isLetterChar c then
      let e := identEnd st.src p
      let lit := slice st.src p e
      (⟨lookupTokenType lit, lit⟩, ⟨st.src, e⟩)
    else if isDigitChar c then
      let e := numberEnd st.src p
      (⟨.INT, slice st.src p e⟩, ⟨st.src, e⟩)
    else (⟨.ILLEGAL, oneChar c⟩, ⟨st.src, p + 1⟩)

/-- The state after `Lexer.__init__`, whose single `_read_character`
places the cursor at position 0. -/
def initLex (src : List Char) : LexState := ⟨src, 0⟩

/-- The lexer state after `n` calls to `next_token`. -/
def lexIter (src : List Char) : Nat → LexState
  | 0 => initLex src
  | n + 1 => (nextToken (lexIter src n)).2

/-- The token returned by the `(n+1)`-st call to `next_token`. -/
def tokenAt (src : List Char) (n : Nat) : Token :=
  (nextToken (lexIter src n)).1

/-!  AST (`src/ast.py`).  Fields that are `Optional` in the Python
classes and inspected by `assert ... is not None` in the evaluator are
kept as `Option`.  `Identifier` nodes are represented by their `value`
string; `Program` is its list of statements. -/

mutual
inductive Expr where
  | ident (value : String)
  | intLit (value : Option Int)
  | boolLit (value : Option Bool)
  | strLit (value : String)
  | prefixE (op : String) (right : Option Expr)
  | infixE (left : Expr) (op : String) (right : Option Expr)
  | ifE (cond : Option Expr) (cons : Option Block) (alt : Option Block)
  | funcE (params : List String) (body : Option Block) (name : Option String)
  | callE (fn : Expr) (args : Option (List Expr))
deriving Repr

inductive Stmt where
  | letS (name : Option String) (value : Option Expr)
  | retS (value : Option Expr)
  | exprS (e : Option Expr)
  | blockS (b : Block)
deriving Repr

inductive Block where
  | mk (stmts : List Stmt)
deriving Repr
end

def Block.stmts : Block → List Stmt
  | .mk l => l

/-!  Runtime objects and environments (`src/object.py`). -/

/-- `ObjectType` from `src/object.py`. -/
inductive ObjectType where
  | BOOLEAN | BUILTIN | ERROR | FUNCTION | INTEGER | NULL | RETURN | STRING
deriving DecidableEq, Repr

/-- The `.name` attribute used when formatting error messages. -/
def ObjectType.tname : ObjectType → String
  | .BOOLEAN => "BOOLEAN"
  | .BUILTIN => "BUILTIN"
  | .ERROR => "ERROR"
  | .FUNCTION => "FUNCTION"
  | .INTEGER => "INTEGER"
  | .NULL => "NULL"
  | .RETURN => "RETURN"
  | .STRING => "STRING"

mutual
/-- Runtime objects.  The booleans are the shared sentinels `TRUE` and
`FALSE` and the null is the shared `NULL`, so their object identity
coincides with their value.  The only entry of the `BUILTINS` table is
`length`, so a `Builtin` object needs no further data.  A `Function`
carries its parameter names, body, captured environment and name (the
default name is the empty identifier). -/
inductive Obj where
  | vint (n : Int)
  | vbool (b : Bool)
  | vnull
  | vstr (s : String)
  | vret (o : Obj)
  | verr (message : String)
  | vfun (params : List String) (body : Block) (env : Env) (name : String)
  | vbuiltin
deriving Repr

/-- `Environment`: a dictionary (association list, newest binding first)
plus an optional outer environment.  Python mutates environments in
place; here the value is threaded through evaluation. -/
inductive Env where
  | mk (store : List (String × Obj)) (outer : Option Env)
deriving Repr
end

/-- Dictionary lookup walking the outer chain (`Environment.__getitem__`),
returning `none` where Python raises `KeyError`. -/
def envGet : Env → String → Option Obj
  | .mk store outer, k =>
    match store.find? (fun p => p.1 = k) with
    | some p => some p.2
    | none =>
      match outer with
      | some o => envGet o k
      | none => none

/-- Dictionary assignment into the innermost frame
(`Environment.__setitem__`). -/
def envSet : Env → String → Obj → Env
  | .mk store outer, k, v => .mk ((k, v) :: store) outer

/-- The empty top-level environment. -/
def env0 : Env := .mk [] none

/-- `Object.type()` dispatch. -/
def objType : Obj → ObjectType
  | .vint _ => .INTEGER
  | .vbool _ => .BOOLEAN
  | .vnull => .NULL
  | .vstr _ => .STRING
  | .vret _ => .RETURN
  | .verr _ => .ERROR
  | .vfun _ _ _ _ => .FUNCTION
  | .vbuiltin => .BUILTIN

/-- Python object identity `left is right` as observable through the
evaluator: the boolean and null sentinels are compared by value (they
are singletons), objects of different types are never identical, and
the builtin table holds a single `length` object.  Distinct return and
function objects are never identical; error objects are approximated by
message equality (value conflation of references).  The evaluator only
reaches this comparison through `==`/`!=` dispatch, and the integer and
string cases are dead there (those are dispatched by value first). -/
def objIs : Obj → Obj → Bool
  | .vbool a, .vbool b => a = b
  | .vnull, .vnull => true
  | .vbuiltin, .vbuiltin => true
  | .vint a, .vint b => a = b
  | .vstr a, .vstr b => a = b
  | .vret _, .vret _ => false
  | .verr a, .verr b => a = b
  | .vfun _ _ _ _, .vfun _ _ _ _ => false
  | _, _ => false

/-- `_is_truthy`: only the `NULL` and `FALSE` sentinels are falsy. -/
def isTruthy : Obj → Bool
  | .vnull => false
  | .vbool false => false
  | _ => true

/-- `_to_boolean_object`: map a native boolean onto the sentinels. -/
def toBooleanObject (b : Bool) : Obj := .vbool b

/-- Native failures of the Python evaluator, plus fuel exhaustion of the
step-indexed embedding (standing for non-termination). -/
inductive Crash where
  | fuelOut
  | zeroDiv
  | indexErr
  | assertFail
deriving DecidableEq, Repr

/-- Python `//`: floor division, raising `ZeroDivisionError` on a zero
divisor. -/
def pyFloorDiv (a b : Int) : Except Crash Int :=
  if b = 0 then .error .zeroDiv else .ok (Int.fdiv a b)

/-- Python `string * int`: repetition, empty for a non-positive count. -/
def strRepeat (s : String) (n : Int) : String :=
  String.join (List.replicate n.toNat s)

/-- `_eval_infix_int` from `src/evaluator.py`; the division case can
raise `ZeroDivisionError`. -/
def evalInfixInt (op : String) (lv rv : Int) : Except Crash Obj :=
  if op = "+" then .ok (.vint (lv + rv))
  else if op = "-" then .ok (.vint (lv - rv))
  else if op = "*" then .ok (.vint (lv * rv))
  else if op = "/" then
    match pyFloorDiv lv rv with
    | .error c => .error c
    | .ok q => .ok (.vint q)
  else if op = "<" then .ok (toBooleanObject (lv < rv))
  else if op = ">" then .ok (toBooleanObject (lv > rv))
  else if op = "==" then .ok (toBooleanObject (lv = rv))
  else if op = "!=" then .ok (toBooleanObject (lv ≠ rv))
  else if op = "<=" then .ok (toBooleanObject (lv ≤ rv))
  else if op = ">=" then .ok (toBooleanObject (lv ≥ rv))
  else .ok (.verr ("Invalid operation: INTEGER " ++ op ++ " INTEGER"))

/-- `_eval_infix_str`: the left operand is a string and the right one a
string or an integer. -/
def evalInfixStr (op : String) (lv : String) (right : Obj) : Obj :=
  match right with
  | .vstr rv =>
    if op = "+" then .vstr (lv ++ rv)
    else if op = "==" then toBooleanObject (lv = rv)
    else if op = "!=" then toBooleanObject (lv ≠ rv)
    else .verr ("Invalid operation: STRING " ++ op ++ " STRING")
  | .vint times =>
    if op = "*" then .vstr (strRepeat lv times)
    else .verr ("Type mismatch: STRING " ++ op ++ " " ++ (objType right).tname)
  | _ =>
    .verr ("Type mismatch: STRING " ++ op ++ " " ++ (objType right).tname)

/-- `_evaluate_infix_expr`: type-directed dispatch of infix operators. -/
def evalInfixExpr (op : String) (left right : Obj) : Except Crash Obj :=
  match left, right with
  | .vint lv, .vint rv => evalInfixInt op lv rv
  | .vstr lv, _ =>
    if objType right = .STRING ∨ objType right = .INTEGER then
      .ok (evalInfixStr op lv right)
    else if op = "==" then .ok (toBooleanObject (objIs left right))
    else if op = "!=" then .ok (toBooleanObject (!objIs left right))
    else if objType left ≠ objType right then
      .ok (.verr ("Type mismatch: " ++ (objType left).tname ++ " " ++ op
        ++ " " ++ (objType right).tname))
    else
      .ok (.verr ("Invalid operation: " ++ (objType left).tname ++ " " ++ op
        ++ " " ++ (objType right).tname))
  | _, _ =>
    if op = "==" then .ok (toBooleanObject (objIs left right))
    else if op = "!=" then .ok (toBooleanObject (!objIs left right))
    else if objType left ≠ objType right then
      .ok (.verr ("Type mismatch: " ++ (objType left).tname ++ " " ++ op
        ++ " " ++ (objType right).tname))
    else
      .ok (.verr ("Invalid operation: " ++ (objType left).tname ++ " " ++ op
        ++ " " ++ (objType right).tname))

/-- `_evaluate_bang`. -/
def evalBang (right : Obj) : Obj :=
  match right with
  | .vint n => if n = 0 then .vbool true else .vbool false
  | _ => if !isTruthy right then .vbool true else .vbool false

/-- `_evaluate_positive`. -/
def evalPositive (right : Obj) : Obj :=
  match right with
  | .vint n => .vint n
  | _ => .verr ("Invalid operator (+) for type: " ++ (objType right).tname)

/-- `_evaluate_negative`. -/
def evalNegative (right : Obj) : Obj :=
  match right with
  | .vint n => .vint (-n)
  | _ => .verr ("Invalid operator (-) for type: " ++ (objType right).tname)

/-- `_evaluate_prefix_expr`. -/
def evalPrefixExpr (op : String) (right : Obj) : Obj :=
  if op = "!" then evalBang right
  else if op = "+" then evalPositive right
  else if op = "-" then evalNegative right
  else .verr ("Invalid operator (" ++ op ++ ") for type: "
    ++ (objType right).tname)

/-- `_evaluate_identifier`: environment chain, then the `BUILTINS` table
(whose single entry is `length`), then an error object. -/
def lookupIdent (env : Env) (name : String) : Obj :=
  match envGet env name with
  | some v => v
  | none =>
    if name = "length" then .vbuiltin
    else .verr ("Identifier not found: " ++ name)

/-- The `length` builtin from `src/builtins.py`. -/
def lengthBuiltin (args : List Obj) : Obj :=
  if args.length ≠ 1 then
    .verr ("Wrong number of arguments: expected 1 (given "
      ++ toString args.length ++ ")")
  else
    match args with
    | [.vstr s] => .vint (Int.ofNat s.length)
    | a :: _ => .verr ("Invalid " ++ (objType a).tname ++ " type argument")
    | [] => .verr "Invalid  type argument"

/-- `_ext_func_env`: child environment of the closure's environment,
binding parameters positionally; a missing argument raises
`IndexError`. -/
def extFuncEnv (params : List String) (args : List Obj) (fnEnv : Env) :
    Except Crash Env :=
  let rec go (ps : List String) (idx : Nat) (acc : Env) : Except Crash Env :=
    match ps with
    | [] => .ok acc
    | p :: rest =>
      match args[idx]? with
      | some a => go rest (idx + 1) (envSet acc p a)
      | none => .error .indexErr
  go params 0 (.mk [] (some fnEnv))

/-- `_unwrap_return_value`. -/
def unwrapReturn : Obj → Obj
  | .vret v => v
  | o => o

/-- Evaluation results: Python's `Optional[Object]` plus the updated
environment, or a native failure. -/
abbrev EvalRes := Except Crash (Option Obj × Env)

/-- The statement loop of `_evaluate_program`: a `Return` unwraps and
returns immediately, an `Error` returns immediately, otherwise the last
result is kept. -/
def runStmtsProgram (ev : Stmt → Env → EvalRes) :
    List Stmt → Option Obj → Env → EvalRes
  | [], res, env => .ok (res, env)
  | s :: rest, _, env =>
    match ev s env with
    | .error c => .error c
    | .ok (r, env') =>
      match r with
      | some (.vret v) => .ok (some v, env')
      | some (.verr m) => .ok (some (.verr m), env')
      | _ => runStmtsProgram ev rest r env'

/-- The statement loop of `_evaluate_block_statements`: `Return` and
`Error` results are returned without unwrapping. -/
def runStmtsBlock (ev : Stmt → Env → EvalRes) :
    List Stmt → Option Obj → Env → EvalRes
  | [], res, env => .ok (res, env)
  | s :: rest, _, env =>
    match ev s env with
    | .error c => .error c
    | .ok (r, env') =>
      match r with
      | some (.vret v) => .ok (some (.vret v), env')
      | some (.verr m) => .ok (some (.verr m), env')
      | _ => runStmtsBlock ev rest r env'

/-- `_evaluate_expr`: evaluate a list of expressions left to right,
asserting each result is not `None`. -/
def runExprList (ev : Expr → Env → EvalRes) :
    List Expr → Env → Except Crash (List Obj × Env)
  | [], env => .ok ([], env)
  | e :: rest, env =>
    match ev e env with
    | .error c => .error c
    | .ok (none, _) => .error .assertFail
    | .ok (some v, env') =>
      match runExprList ev rest env' with
      | .error c => .error c
      | .ok (vs, env'') => .ok (v :: vs, env'')

/-!  The recursive core of `evaluate` from `src/evaluator.py`.  Each
recursive `evaluate` call in the source consumes one unit of fuel;
running out of fuel stands for non-termination.  Helper loops that
Python writes as `for` statements (`_evaluate_program`,
`_evaluate_block_statements`, `_evaluate_expr`) do not consume fuel
themselves; each of their iterations calls `evaluate` on a statement or
expression. -/

mutual
/-- `evaluate` restricted to expression nodes. -/
def evalExpr : Nat → Expr → Env → EvalRes
  | 0, _, _ => .error .fuelOut
  | f + 1, e, env =>
    match e with
    | .intLit v =>
      match v with
      | none => .error .assertFail
      | some n => .ok (some (.vint n), env)
    | .boolLit v =>
      match v with
      | none => .error .assertFail
      | some b => .ok (some (toBooleanObject b), env)
    | .strLit s => .ok (some (.vstr s), env)
    | .prefixE op right =>
      match right with
      | none => .error .assertFail
      | some r =>
        match evalExpr f r env with
        | .error c => .error c
        | .ok (none, _) => .error .assertFail
        | .ok (some rv, env') => .ok (some (evalPrefixExpr op rv), env')
    | .infixE left op right =>
      match right with
      | none => .error .assertFail
      | some r =>
        match evalExpr f left env with
        | .error c => .error c
        | .ok (lv?, env₁) =>
          match evalExpr f r env₁ with
          | .error c => .error c
          | .ok (rv?, env₂) =>
            match lv?, rv? with
            | some lv, some rv =>
              match evalInfixExpr op lv rv with
              | .error c => .error c
              | .ok v => .ok (some v, env₂)
            | _, _ => .error .assertFail
    | .ifE cond cons alt =>
      match cond with
      | none => .error .assertFail
      | some c =>
        match evalExpr f c env with
        | .error cr => .error cr
        | .ok (none, _) => .error .assertFail
        | .ok (some cv, env₁) =>
          if isTruthy cv then
            match cons with
            | none => .error .assertFail
            | some b => evalBlock f b env₁
          else
            match alt with
            | some b => evalBlock f b env₁
            | none => .ok (some .vnull, env₁)
    | .ident name => .ok (some (lookupIdent env name), env)
    | .funcE params body name =>
      match body with
      | none => .error .assertFail
      | some b =>
        match name with
        | none => .ok (some (.vfun params b env ""), env)
        | some n => .ok (some (.vfun params b env n),
            envSet env n (.vfun params b env n))
    | .callE fn args =>
      match evalExpr f fn env with
      | .error c => .error c
      | .ok (fv?, env₁) =>
        match fv?, args with
        | some fv, some argl =>
          match runExprList (fun e env => evalExpr f e env) argl env₁ with
          | .error c => .error c
          | .ok (argvs, env₂) =>
            match applyFunc f fv argvs with
            | .error c => .error c
            | .ok r => .ok (some r, env₂)
        | _, _ => .error .assertFail

/-- `evaluate` restricted to statement nodes. -/
def evalStmt : Nat → Stmt → Env → EvalRes
  | 0, _, _ => .error .fuelOut
  | f + 1, s, env =>
    match s with
    | .exprS e =>
      match e with
      | none => .error .assertFail
      | some e' => evalExpr f e' env
    | .retS v =>
      match v with
      | none => .error .assertFail
      | some e =>
        match evalExpr f e env with
        | .error c => .error c
        | .ok (none, _) => .error .assertFail
        | .ok (some rv, env') => .ok (some (.vret rv), env')
    | .letS name value =>
      match value with
      | none => .error .assertFail
      | some e =>
        match evalExpr f e env with
        | .error c => .error c
        | .ok (none, _) => .error .assertFail
        | .ok (some v, env') =>
          match name with
          | none => .error .assertFail
          | some n => .ok (some v, envSet env' n v)
    | .blockS b => evalBlock f b env

/-- `evaluate` on a `Block` node. -/
def evalBlock : Nat → Block → Env → EvalRes
  | 0, _, _ => .error .fuelOut
  | f + 1, b, env => runStmtsBlock (fun s env => evalStmt f s env) b.stmts none env

/-- `_apply_func`: user functions get a fresh child environment and
their body's `Return` unwrapped; the builtin is applied natively;
anything else is a `Not a function` error. -/
def applyFunc : Nat → Obj → List Obj → Except Crash Obj
  | 0, _, _ => .error .fuelOut
  | f + 1, fn, args =>
    match fn with
    | .vfun params body fnEnv _ =>
      match extFuncEnv params args fnEnv with
      | .error c => .error c
      | .ok ext =>
        match evalBlock f body ext with
        | .error c => .error c
        | .ok (none, _) => .error .assertFail
        | .ok (some v, _) => .ok (unwrapReturn v)
    | .vbuiltin => .ok (lengthBuiltin args)
    | _ => .ok (.verr ("Not a function: " ++ (objType fn).tname))
end

/-- `evaluate` on a `Program` node (`_evaluate_program`). -/
def evalProgram : Nat → List Stmt → Env → EvalRes
  | 0, _, _ => .error .fuelOut
  | f + 1, stmts, env => runStmtsProgram (fun s env => evalStmt f s env) stmts none env

/-!  Parser (`src/parser.py`).  The parser keeps a current and a peek
token, pulled from the lexer; parse errors are accumulated as strings.
The mutually recursive parsing functions are step-indexed with fuel
(the Python recursion terminates because the token stream is eventually
`EOF`; the claims hold for every fuel). -/

/-- `Precedence` levels (an `IntEnum` starting at `LOWEST = 1`). -/
def precLOWEST : Nat := 1
def precEQ : Nat := 2
def precLESSGREATER : Nat := 3
def precSUM : Nat := 4
def precPRODUCT : Nat := 5
def precUNARY : Nat := 6
def precCALL : Nat := 7

/-- The `PRECEDENCES` table, with the `KeyError` default of `LOWEST`
used by `_peek_precedence` and `_current_precedence`. -/
def precedenceOf : TokenType → Nat
  | .EQUALS => precEQ
  | .NOT_EQUALS => precEQ
  | .LT => precLESSGREATER
  | .GT => precLESSGREATER
  | .LE => precLESSGREATER
  | .GE => precLESSGREATER
  | .PLUS => precSUM
  | .MINUS => precSUM
  | .MULTIPLICATION => precPRODUCT
  | .DIVISION => precPRODUCT
  | .NEGATION => precUNARY
  | .AND => precLESSGREATER
  | .OR => precLESSGREATER
  | .XOR => precLESSGREATER
  | .LPAREN => precCALL
  | _ => precLOWEST

/-- The two shapes of registered infix parsing functions:
`_parse_infix_expression` for binary operators and `_parse_call` for
`(`. -/
inductive InfixTag where
  | binOp
  | callOp
deriving DecidableEq, Repr

/-- `_register_infix_fns`: the infix parser table. -/
def infixFns : TokenType → Option InfixTag
  | .ASSIGN => some .binOp
  | .PLUS => some .binOp
  | .MINUS => some .binOp
  | .MULTIPLICATION => some .binOp
  | .DIVISION => some .binOp
  | .EQUALS => some .binOp
  | .NOT_EQUALS => some .binOp
  | .LT => some .binOp
  | .GT => some .binOp
  | .LE => some .binOp
  | .GE => some .binOp
  | .AND => some .binOp
  | .OR => some .binOp
  | .XOR => some .binOp
  | .LPAREN => some .callOp
  | _ => none

/-- The registered prefix parsing functions of `_register_prefix_fns`. -/
inductive PrefixTag where
  | boolTag | identTag | intTag | unaryTag | groupTag | ifTag | funcTag | strTag
deriving DecidableEq, Repr

/-- `_register_prefix_fns`: the prefix parser table (note `ELSE` is
also mapped to `_parse_if`). -/
def prefixFns : TokenType → Option PrefixTag
  | .TRUE => some .boolTag
  | .FALSE => some .boolTag
  | .IDENT => some .identTag
  | .INT => some .intTag
  | .MINUS => some .unaryTag
  | .NEGATION => some .unaryTag
  | .LPAREN => some .groupTag
  | .IF => some .ifTag
  | .ELSE => some .ifTag
  | .FUNCTION => some .funcTag
  | .STRING => some .strTag
  | _ => none

/-- Printed form of a token type, as in Python `str(TokenType.X)`. -/
def ttName : TokenType → String
  | .AND => "AND" | .ASSIGN => "ASSIGN" | .COMMA => "COMMA"
  | .CONST => "CONST" | .DIVISION => "DIVISION" | .EQUALS => "EQUALS"
  | .ELSE => "ELSE" | .EOF => "EOF" | .FALSE => "FALSE"
  | .FUNCTION => "FUNCTION" | .ILLEGAL => "ILLEGAL" | .GE => "GE"
  | .GT => "GT" | .IDENT => "IDENT" | .IF => "IF" | .INT => "INT"
  | .INTERSECTION => "INTERSECTION" | .LBRACE => "LBRACE" | .LE => "LE"
  | .LET => "LET" | .LT => "LT" | .LPAREN => "LPAREN" | .MINUS => "MINUS"
  | .MULTIPLICATION => "MULTIPLICATION" | .NEGATION => "NEGATION"
  | .NOT_EQUALS => "NOT_EQUALS" | .OR => "OR" | .PLUS => "PLUS"
  | .RBRACE => "RBRACE" | .RETURN => "RETURN" | .RPAREN => "RPAREN"
  | .SEMICOLON => "SEMICOLON" | .STRING => "STRING" | .TRUE => "TRUE"
  | .UNION => "UNION" | .VAR => "VAR" | .XOR => "XOR"

/-- `Token.__str__`. -/
def tokenStr (t : Token) : String :=
  "Type: TokenType." ++ ttName t.ttype ++ ", Literal: " ++ t.literal

/-- Parser state: the lexer, the two-token window, and the accumulated
error messages.  The two-step primer of `Parser.__init__` guarantees
the current and peek tokens are present. -/
structure PState where
  lex : LexState
  cur : Token
  peek : Token
  errors : List String
deriving Repr

/-- `_advance_tokens`. -/
def padvance (st : PState) : PState :=
  let (t, l) := nextToken st.lex
  ⟨l, st.peek, t, st.errors⟩

/-- Append a parse error message. -/
def pushErr (st : PState) (msg : String) : PState :=
  ⟨st.lex, st.cur, st.peek, st.errors ++ [msg]⟩

/-- `_expected_token`: advance when the peek token matches, record an
error otherwise. -/
def expectedToken (tt : TokenType) (st : PState) : Bool × PState :=
  if st.peek.ttype = tt then (true, padvance st)
  else (false, pushErr st ("Expected token: TokenType." ++ ttName tt
    ++ " but the token inserted is: " ++ tokenStr st.peek))

/-- `_parse_identifier` (on the current token). -/
def parseIdentifier (st : PState) : Expr := .ident st.cur.literal

/-- `_parse_boolean`. -/
def parseBoolean (st : PState) : Expr :=
  .boolLit (some (st.cur.ttype = TokenType.TRUE))

/-- `_parse_string_literal`. -/
def parseStringLit (st : PState) : Expr := .strLit st.cur.literal

/-- Python `int(...)` restricted to the decimal literals the lexer can
produce for `INT` tokens (runs of ASCII digits, on which `int` never
fails); any other content takes the `ValueError` path and yields
`none`. -/
def parseIntLit (s : String) : Option Int :=
  match s.data with
  | [] => none
  | l => (parseIntDigits l 0).map Int.ofNat

/-- `_parse_integer`: Python `int(...)` applied to the literal, with the
`ValueError` path recording an error and producing no node. -/
def parseInteger (st : PState) : Option Expr × PState :=
  match parseIntLit st.cur.literal with
  | some n => (some (.intLit (some n)), st)
  | none => (none, pushErr st ("Is not an integer: " ++ tokenStr st.cur))

mutual
/-- `_parse_expression`: prefix dispatch, then the infix loop. -/
def parseExpression : Nat → Nat → PState → Option Expr × PState
  | 0, _, st => (none, st)
  | f + 1, prec, st =>
    match prefixFns st.cur.ttype with
    | none => (none, pushErr st ("No function found to parse: " ++ st.cur.literal))
    | some tag =>
      let (left, st1) := parsePrefixFn f tag st
      parseExprLoop f prec left st1

/-- The `while` loop inside `_parse_expression`.  A missing infix parser
(`KeyError`) and a `None` left expression (`AssertionError`, raised
after the tokens were advanced) are both caught by the
`except BaseException` and return the current left expression. -/
def parseExprLoop : Nat → Nat → Option Expr → PState → Option Expr × PState
  | 0, _, left, st => (left, st)
  | f + 1, prec, left, st =>
    if st.peek.ttype ≠ TokenType.SEMICOLON ∧ prec < precedenceOf st.peek.ttype then
      match infixFns st.peek.ttype with
      | none => (left, st)
      | some tag =>
        let st1 := padvance st
        match left with
        | none => (none, st1)
        | some l =>
          let (e, st2) := parseInfixFn f tag l st1
          parseExprLoop f prec (some e) st2
    else (left, st)

/-- Dispatch of the registered infix parsing functions:
`_parse_infix_expression` and `_parse_call`. -/
def parseInfixFn : Nat → InfixTag → Expr → PState → Expr × PState
  | 0, _, left, st => (left, st)
  | f + 1, .binOp, left, st =>
    let op := st.cur.literal
    let prec := precedenceOf st.cur.ttype
    let st1 := padvance st
    let (right, st2) := parseExpression f prec st1
    (.infixE left op right, st2)
  | f + 1, .callOp, left, st =>
    let (args, st1) := parseCallArgs f st
    (.callE left args, st1)

/-- `_parse_call_args`. -/
def parseCallArgs : Nat → PState → Option (List Expr) × PState
  | 0, st => (none, st)
  | f + 1, st =>
    if st.peek.ttype = TokenType.RPAREN then (some [], padvance st)
    else parseCallLoop f (padvance st) []

/-- The do-while loop of `_parse_call_args`. -/
def parseCallLoop : Nat → PState → List Expr → Option (List Expr) × PState
  | 0, st, _ => (none, st)
  | f + 1, st, acc =>
    let (e?, st1) := parseExpression f precLOWEST st
    let acc' := match e? with
      | some e => acc ++ [e]
      | none => acc
    if st1.peek.ttype = TokenType.COMMA then
      parseCallLoop f (padvance (padvance st1)) acc'
    else
      match expectedToken TokenType.RPAREN st1 with
      | (true, st2) => (some acc', st2)
      | (false, st2) => (none, st2)

/-- Dispatch of the registered prefix parsing functions. -/
def parsePrefixFn : Nat → PrefixTag → PState → Option Expr × PState
  | 0, _, st => (none, st)
  | _ + 1, .boolTag, st => (some (parseBoolean st), st)
  | _ + 1, .identTag, st => (some (parseIdentifier st), st)
  | _ + 1, .intTag, st => parseInteger st
  | _ + 1, .strTag, st => (some (parseStringLit st), st)
  | f + 1, .unaryTag, st =>
    let op := st.cur.literal
    let st1 := padvance st
    let (right, st2) := parseExpression f precUNARY st1
    (some (.prefixE op right), st2)
  | f + 1, .groupTag, st =>
    let st1 := padvance st
    let (e, st2) := parseExpression f precLOWEST st1
    match expectedToken TokenType.RPAREN st2 with
    | (true, st3) => (e, st3)
    | (false, st3) => (none, st3)
  | f + 1, .ifTag, st => parseIf f st
  | f + 1, .funcTag, st => parseFunction f st

/-- `_parse_if`. -/
def parseIf : Nat → PState → Option Expr × PState
  | 0, st => (none, st)
  | f + 1, st =>
    match expectedToken TokenType.LPAREN st with
    | (false, st1) => (none, st1)
    | (true, st1) =>
      let st2 := padvance st1
      let (cond, st3) := parseExpression f precLOWEST st2
      match expectedToken TokenType.RPAREN st3 with
      | (false, st4) => (none, st4)
      | (true, st4) =>
        match expectedToken TokenType.LBRACE st4 with
        | (false, st5) => (none, st5)
        | (true, st5) =>
          let (cons, st6) := parseBlock f st5
          if st6.peek.ttype = TokenType.ELSE then
            let st7 := padvance st6
            match expectedToken TokenType.LBRACE st7 with
            | (false, st8) => (none, st8)
            | (true, st8) =>
              let (alt, st9) := parseBlock f st8
              (some (.ifE cond (some cons) (some alt)), st9)
          else (some (.ifE cond (some cons) none), st6)

/-- `_parse_function`. -/
def parseFunction : Nat → PState → Option Expr × PState
  | 0, st => (none, st)
  | f + 1, st =>
    let (name?, st1) :=
      if st.peek.ttype = TokenType.IDENT then
        let st' := padvance st
        (some st'.cur.literal, st')
      else (none, st)
    match expectedToken TokenType.LPAREN st1 with
    | (false, st2) => (none, st2)
    | (true, st2) =>
      let (params, st3) := parseFuncParams f st2
      match expectedToken TokenType.LBRACE st3 with
      | (false, st4) => (none, st4)
      | (true, st4) =>
        let (body, st5) := parseBlock f st4
        (some (.funcE params (some body) name?), st5)

/-- `_parse_func_params` (the `peek != EOF` conjunct of its loop is
redundant beside `peek == COMMA` and is dropped). -/
def parseFuncParams : Nat → PState → List String × PState
  | 0, st => ([], st)
  | f + 1, st =>
    if st.peek.ttype = TokenType.RPAREN then ([], padvance st)
    else
      let st1 := padvance st
      parseParamsLoop f st1 [st1.cur.literal]

/-- The comma loop of `_parse_func_params`; a missing `)` discards the
collected parameters. -/
def parseParamsLoop : Nat → PState → List String → List String × PState
  | 0, st, acc => (acc, st)
  | f + 1, st, acc =>
    if st.peek.ttype = TokenType.COMMA then
      let st1 := padvance (padvance st)
      parseParamsLoop f st1 (acc ++ [st1.cur.literal])
    else
      match expectedToken TokenType.RPAREN st with
      | (true, st1) => (acc, st1)
      | (false, st1) => ([], st1)

/-- `_parse_block`: advance past `{` and collect statements until `}`
or `EOF`. -/
def parseBlock : Nat → PState → Block × PState
  | 0, st => (.mk [], st)
  | f + 1, st => parseBlockLoop f (padvance st) []

/-- The statement loop of `_parse_block`. -/
def parseBlockLoop : Nat → PState → List Stmt → Block × PState
  | 0, st, acc => (.mk acc, st)
  | f + 1, st, acc =>
    if st.cur.ttype ≠ TokenType.RBRACE ∧ st.cur.ttype ≠ TokenType.EOF then
      let (s?, st1) := parseStatement f st
      let acc' := match s? with
        | some s => acc ++ [s]
        | none => acc
      parseBlockLoop f (padvance st1) acc'
    else (.mk acc, st)

/-- `_parse_statement` dispatch: `let`/`var`/`const`, `return`, or an
expression statement. -/
def parseStatement : Nat → PState → Option Stmt × PState
  | 0, st => (none, st)
  | f + 1, st =>
    if st.cur.ttype = TokenType.LET ∨ st.cur.ttype = TokenType.VAR
        ∨ st.cur.ttype = TokenType.CONST then
      parseLetStatement f st
    else if st.cur.ttype = TokenType.RETURN then
      parseReturnStatement f st
    else
      parseExpressionStatement f st

/-- `_parse_let_statement`. -/
def parseLetStatement : Nat → PState → Option Stmt × PState
  | 0, st => (none, st)
  | f + 1, st =>
    match expectedToken TokenType.IDENT st with
    | (false, st1) => (none, st1)
    | (true, st1) =>
      let name := st1.cur.literal
      match expectedToken TokenType.ASSIGN st1 with
      | (false, st2) => (none, st2)
      | (true, st2) =>
        let st3 := padvance st2
        let (v, st4) := parseExpression f precLOWEST st3
        let st5 := if st4.peek.ttype = TokenType.SEMICOLON then padvance st4 else st4
        (some (.letS (some name) v), st5)

/-- `_parse_return_statement`. -/
def parseReturnStatement : Nat → PState → Option Stmt × PState
  | 0, st => (none, st)
  | f + 1, st =>
    let st1 := padvance st
    let (v, st2) := parseExpression f precLOWEST st1
    let st3 := if st2.peek.ttype = TokenType.SEMICOLON then padvance st2 else st2
    (some (.retS v), st3)

/-- `_parse_expression_statement`. -/
def parseExpressionStatement : Nat → PState → Option Stmt × PState
  | 0, st => (none, st)
  | f + 1, st =>
    let (e, st1) := parseExpression f precLOWEST st
    let st2 := if st1.peek.ttype = TokenType.SEMICOLON then padvance st1 else st1
    (some (.exprS e), st2)
end

/-- The statement loop of `parse_program`. -/
def parseProgramLoop : Nat → PState → List Stmt → List Stmt × PState
  | 0, st, acc => (acc, st)
  | f + 1, st, acc =>
    if st.cur.ttype ≠ TokenType.EOF then
      let (s?, st1) := parseStatement f st
      let acc' := match s? with
        | some s => acc ++ [s]
        | none => acc
      parseProgramLoop f (padvance st1) acc'
    else (acc, st)

/-- `Parser.__init__`: prime the two-token window from the lexer. -/
def initParser (src : List Char) : PState :=
  let (t1, l1) := nextToken (initLex src)
  let (t2, l2) := nextToken l1
  ⟨l2, t1, t2, []⟩

/-- `parse_program` on the parser built from the source string. -/
def parseProgram (f : Nat) (src : List Char) : List Stmt × PState :=
  parseProgramLoop f (initParser src) []

/-!  Tokens that can trigger `_parse_infix_expression`.  The operator
literal of every `Infix` node is the literal of a token dispatching to
`binOp`; `ASSIGN` never fires because its precedence defaults to
`LOWEST` while `parse_expression` is always invoked with a precedence
of at least `LOWEST`.  `GoodTok` records that a lexer token whose kind
dispatches to `binOp` and is not `ASSIGN` never carries the literal
`=`. -/
abbrev GoodTok (t : Token) : Prop :=
  infixFns t.ttype = some .binOp → t.ttype ≠ .ASSIGN → t.literal ≠ "="

/-- Both the current and the peek token of a parser state came from the
lexer, hence satisfy `GoodTok`. -/
abbrev PGood (st : PState) : Prop := GoodTok st.cur ∧ GoodTok st.peek


/-!  No expression, statement or block produced by the parser contains
an `Infix` node whose operator is `=`. -/

mutual
def noAsgE : Expr → Bool
  | .ident _ => true
  | .intLit _ => true
  | .boolLit _ => true
  | .strLit _ => true
  | .prefixE _ r => noAsgEO r
  | .infixE l op r => (decide (op ≠ "=")) && noAsgE l && noAsgEO r
  | .ifE c cons alt => noAsgEO c && noAsgBO cons && noAsgBO alt
  | .funcE _ body _ => noAsgBO body
  | .callE fn args => noAsgE fn && noAsgELO args

def noAsgEO : Option Expr → Bool
  | none => true
  | some e => noAsgE e

def noAsgEL : List Expr → Bool
  | [] => true
  | e :: r => noAsgE e && noAsgEL r

def noAsgELO : Option (List Expr) → Bool
  | none => true
  | some l => noAsgEL l

def noAsgB : Block → Bool
  | .mk l => noAsgSL l

def noAsgBO : Option Block → Bool
  | none => true
  | some b => noAsgB b

def noAsgS : Stmt → Bool
  | .letS _ v => noAsgEO v
  | .retS v => noAsgEO v
  | .exprS e => noAsgEO e
  | .blockS b => noAsgB b

def noAsgSL : List Stmt → Bool
  | [] => true
  | s :: r => noAsgS s && noAsgSL r
end

def noAsgSO : Option Stmt → Bool
  | none => true
  | some s => noAsgS s

/-- Evaluating each statement of a list in turn with per-statement fuel
`f` produced neither a `Return` wrapper nor an `Error`, threading the
environment from `env` to the final environment. -/
inductive CleanSeq (f : Nat) : List Stmt → Env → Env → Prop where
  | nil (env : Env) : CleanSeq f [] env env
  | cons {s : Stmt} {rest : List Stmt} {env env₁ env₂ : Env} {r : Option Obj}
      (hs : evalStmt f s env = .ok (r, env₁))
      (hret : ∀ v, r ≠ some (.vret v))
      (herr : ∀ m, r ≠ some (.verr m))
      (htail : CleanSeq f rest env₁ env₂) :
      CleanSeq f (s :: rest) env env₂



theorem charAt_some_lt {src : List Char} {pos : Nat} {c : Char}
    (h : charAt src pos = some c) : pos < src.length := by
  by_contra hge
  rw [charAt, List.getElem?_eq_none (Nat.le_of_not_lt hge)] at h
  exact Option.noConfusion h

/-!  Lexer lemmas: every call to `next_token` consumes at least one
source position, and past the end of the source only `EOF` tokens are
produced. -/

theorem charAt_none {src : List Char} {pos : Nat} (h : src.length ≤ pos) :
    charAt src pos = none := by
  rw [charAt, List.getElem?_eq_none h]

theorem skipWSAux_ge (k : Nat) (src : List Char) : ∀ pos, pos ≤ skipWSAux k src pos := by
  induction k with
  | zero => intro pos; exact Nat.le_refl pos
  | succ k ih =>
    intro pos
    show pos ≤ (match charAt src pos with
      | some c => if isSpaceChar c then skipWSAux k src (pos + 1) else pos
      | none => pos)
    cases charAt src pos with
    | none => exact Nat.le_refl pos
    | some c =>
      show pos ≤ if isSpaceChar c then skipWSAux k src (pos + 1) else pos
      by_cases hc : isSpaceChar c = true
      · rw [if_pos hc]
        have := ih (pos + 1)
        omega
      · rw [if_neg hc]

theorem skipWS_ge (src : List Char) (pos : Nat) : pos ≤ skipWS src pos :=
  skipWSAux_ge _ src pos

theorem identEndAux_ge (k : Nat) (src : List Char) : ∀ pos, pos ≤ identEndAux k src pos := by
  induction k with
  | zero => intro pos; exact Nat.le_refl pos
  | succ k ih =>
    intro pos
    show pos ≤ (match charAt src pos with
      | some c => if isLetterChar c || isDigitChar c then identEndAux k src (pos + 1) else pos
      | none => pos)
    cases charAt src pos with
    | none => exact Nat.le_refl pos
    | some c =>
      show pos ≤ if isLetterChar c || isDigitChar c then identEndAux k src (pos + 1) else pos
      by_cases hc : (isLetterChar c || isDigitChar c) = true
      · rw [if_pos hc]
        have := ih (pos + 1)
        omega
      · rw [if_neg hc]

theorem numberEndAux_ge (k : Nat) (src : List Char) : ∀ pos, pos ≤ numberEndAux k src pos := by
  induction k with
  | zero => intro pos; exact Nat.le_refl pos
  | succ k ih =>
    intro pos
    show pos ≤ (match charAt src pos with
      | some c => if isDigitChar c then numberEndAux k src (pos + 1) else pos
      | none => pos)
    cases charAt src pos with
    | none => exact Nat.le_refl pos
    | some c =>
      show pos ≤ if isDigitChar c then numberEndAux k src (pos + 1) else pos
      by_cases hc : isDigitChar c = true
      · rw [if_pos hc]
        have := ih (pos + 1)
        omega
      · rw [if_neg hc]

theorem stringEndAux_ge (k : Nat) (src : List Char) (q : Char) :
    ∀ pos, pos ≤ stringEndAux k src q pos := by
  induction k with
  | zero => intro pos; exact Nat.le_refl pos
  | succ k ih =>
    intro pos
    show pos ≤ if charAt src pos ≠ some q ∧ pos + 1 ≤ src.length then
        stringEndAux k src q (pos + 1)
      else pos
    by_cases hc : (charAt src pos ≠ some q ∧ pos + 1 ≤ src.length)
    · rw [if_pos hc]
      have := ih (pos + 1)
      omega
    · rw [if_neg hc]

theorem stringEnd_ge (src : List Char) (q : Char) (pos : Nat) :
    pos ≤ stringEnd src q pos :=
  stringEndAux_ge _ src q pos

theorem identEnd_ge_succ {src : List Char} {pos : Nat} {c : Char}
    (h : charAt src pos = some c) (hc : (isLetterChar c || isDigitChar c) = true) :
    pos + 1 ≤ identEnd src pos := by
  have hlt := charAt_some_lt h
  have hk : src.length - pos = (src.length - (pos + 1)) + 1 := by omega
  rw [identEnd, hk]
  show pos + 1 ≤ (match charAt src pos with
    | some c => if isLetterChar c || isDigitChar c then
        identEndAux (src.length - (pos + 1)) src (pos + 1)
      else pos
    | none => pos)
  rw [h]
  show pos + 1 ≤ if isLetterChar c || isDigitChar c then
      identEndAux (src.length - (pos + 1)) src (pos + 1)
    else pos
  rw [if_pos hc]
  exact identEndAux_ge _ src (pos + 1)

theorem numberEnd_ge_succ {src : List Char} {pos : Nat} {c : Char}
    (h : charAt src pos = some c) (hc : isDigitChar c = true) :
    pos + 1 ≤ numberEnd src pos := by
  have hlt := charAt_some_lt h
  have hk : src.length - pos = (src.length - (pos + 1)) + 1 := by omega
  rw [numberEnd, hk]
  show pos + 1 ≤ (match charAt src pos with
    | some c => if isDigitChar c then
        numberEndAux (src.length - (pos + 1)) src (pos + 1)
      else pos
    | none => pos)
  rw [h]
  show pos + 1 ≤ if isDigitChar c then
      numberEndAux (src.length - (pos + 1)) src (pos + 1)
    else pos
  rw [if_pos hc]
  exact numberEndAux_ge _ src (pos + 1)

/-- The state produced by `next_token`: the source is unchanged and the
cursor advances by at least one position (every branch of the
classification performs at least one `_read_character`). -/
theorem nextToken_next (st : LexState) :
    ∃ q, (nextToken st).2 = ⟨st.src, q⟩ ∧ st.pos + 1 ≤ q := by
  have hws : st.pos ≤ skipWS st.src st.pos := skipWS_ge st.src st.pos
  rw [nextToken]
  cases hc : charAt st.src (skipWS st.src st.pos) with
  | none => exact ⟨skipWS st.src st.pos + 1, rfl, by omega⟩
  | some c =>
    show ∃ q, (if c = Char.ofNat 61 then _ else _ : Token × LexState).2 = _ ∧ _
    by_cases h1 : c = Char.ofNat 61
    · rw [if_pos h1]
      by_cases h1' : charAt st.src (skipWS st.src st.pos + 1) = some (Char.ofNat 61)
      · rw [if_pos h1']; exact ⟨_, rfl, by omega⟩
      · rw [if_neg h1']; exact ⟨_, rfl, by omega⟩
    rw [if_neg h1]
    by_cases h2 : c = Char.ofNat 33
    · rw [if_pos h2]
      by_cases h2' : charAt st.src (skipWS st.src st.pos + 1) = some (Char.ofNat 61)
      · rw [if_pos h2']; exact ⟨_, rfl, by omega⟩
      · rw [if_neg h2']; exact ⟨_, rfl, by omega⟩
    rw [if_neg h2]
    by_cases h3 : c = Char.ofNat 38
    · rw [if_pos h3]
      by_cases h3' : charAt st.src (skipWS st.src st.pos + 1) = some (Char.ofNat 38)
      · rw [if_pos h3']; exact ⟨_, rfl, by omega⟩
      · rw [if_neg h3']; exact ⟨_, rfl, by omega⟩
    rw [if_neg h3]
    by_cases h4 : c = Char.ofNat 124
    · rw [if_pos h4]
      by_cases h4' : charAt st.src (skipWS st.src st.pos + 1) = some (Char.ofNat 124)
      · rw [if_pos h4']; exact ⟨_, rfl, by omega⟩
      · rw [if_neg h4']; exact ⟨_, rfl, by omega⟩
    rw [if_neg h4]
    by_cases h5 : c = Char.ofNat 94
    · rw [if_pos h5]; exact ⟨_, rfl, by omega⟩
    rw [if_neg h5]
    by_cases h6 : c = Char.ofNat 43
    · rw [if_pos h6]; exact ⟨_, rfl, by omega⟩
    rw [if_neg h6]
    by_cases h7 : c = Char.ofNat 45
    · rw [if_pos h7]; exact ⟨_, rfl, by omega⟩
    rw [if_neg h7]
    by_cases h8 : c = Char.ofNat 42
    · rw [if_pos h8]; exact ⟨_, rfl, by omega⟩
    rw [if_neg h8]
    by_cases h9 : c = Char.ofNat 47
    · rw [if_pos h9]; exact ⟨_, rfl, by omega⟩
    rw [if_neg h9]
    by_cases h10 : c = Char.ofNat 40
    · rw [if_pos h10]; exact ⟨_, rfl, by omega⟩
    rw [if_neg h10]
    by_cases h11 : c = Char.ofNat 41
    · rw [if_pos h11]; exact ⟨_, rfl, by omega⟩
    rw [if_neg h11]
    by_cases h12 : c = Char.ofNat 123
    · rw [if_pos h12]; exact ⟨_, rfl, by omega⟩
    rw [if_neg h12]
    by_cases h13 : c = Char.ofNat 125
    · rw [if_pos h13]; exact ⟨_, rfl, by omega⟩
    rw [if_neg h13]
    by_cases h14 : c = Char.ofNat 44
    · rw [if_pos h14]; exact ⟨_, rfl, by omega⟩
    rw [if_neg h14]
    by_cases h15 : (c = Char.ofNat 34 ∨ c = Char.ofNat 39)
    · rw [if_pos h15]
      have := stringEnd_ge st.src c (skipWS st.src st.pos + 1)
      exact ⟨_, rfl, by omega⟩
    rw [if_neg h15]
    by_cases h16 : c = Char.ofNat 59
    · rw [if_pos h16]; exact ⟨_, rfl, by omega⟩
    rw [if_neg h16]
    by_cases h17 : c = Char.ofNat 60
    · rw [if_pos h17]
      by_cases h17' : charAt st.src (skipWS st.src st.pos + 1) = some (Char.ofNat 61)
      · rw [if_pos h17']; exact ⟨_, rfl, by omega⟩
      · rw [if_neg h17']; exact ⟨_, rfl, by omega⟩
    rw [if_neg h17]
    by_cases h18 : c = Char.ofNat 62
    · rw [if_pos h18]
      by_cases h18' : charAt st.src (skipWS st.src st.pos + 1) = some (Char.ofNat 61)
      · rw [if_pos h18']; exact ⟨_, rfl, by omega⟩
      · rw [if_neg h18']; exact ⟨_, rfl, by omega⟩
    rw [if_neg h18]
    by_cases h19 : isLetterChar c = true
    · rw [if_pos h19]
      have := identEnd_ge_succ hc (by rw [h19]; rfl)
      exact ⟨_, rfl, by omega⟩
    rw [if_neg h19]
    by_cases h20 : isDigitChar c = true
    · rw [if_pos h20]
      have := numberEnd_ge_succ hc h20
      exact ⟨_, rfl, by omega⟩
    rw [if_neg h20]
    exact ⟨_, rfl, by omega⟩

/-- `next_token` preserves the source. -/
theorem nextToken_src (st : LexState) : (nextToken st).2.src = st.src := by
  obtain ⟨q, hq, _⟩ := nextToken_next st
  rw [hq]

/-- Each call to `next_token` advances the cursor. -/
theorem nextToken_pos (st : LexState) : st.pos + 1 ≤ (nextToken st).2.pos := by
  obtain ⟨q, hq, hle⟩ := nextToken_next st
  rw [hq]
  exact hle

/-- Past the end of the source, `next_token` returns an `EOF` token. -/
theorem nextToken_eof {st : LexState} (h : st.src.length ≤ st.pos) :
    (nextToken st).1 = ⟨.EOF, ""⟩ := by
  have hws : skipWS st.src st.pos = st.pos := by
    rw [skipWS, Nat.sub_eq_zero_of_le h]
    rfl
  rw [nextToken]
  cases hc : charAt st.src (skipWS st.src st.pos) with
  | none => rfl
  | some c => rw [hws, charAt_none h] at hc; exact Option.noConfusion hc

theorem lookupTokenType_good (s : String) : GoodTok ⟨lookupTokenType s, s⟩ := by
  intro hf _
  show s ≠ "="
  intro he
  subst he
  exact absurd hf (by decide)

/-- Every token produced by the lexer satisfies `GoodTok`: the literal
`=` is only carried by `ASSIGN` tokens (or string literals, which do
not dispatch to an infix parser). -/
theorem lexGood_eq (st : LexState) (tok : Token) (st' : LexState)
    (h : nextToken st = (tok, st')) : GoodTok tok := by
  rw [nextToken] at h
  cases hc : charAt st.src (skipWS st.src st.pos) with
  | none =>
    rw [hc] at h
    injection h with ht _
    subst ht
    intro hf _
    exact absurd hf (by decide)
  | some c =>
    rw [hc] at h
    simp only [] at h
    by_cases h1 : c = Char.ofNat 61
    · subst h1
      rw [if_pos rfl] at h
      by_cases h1' : charAt st.src (skipWS st.src st.pos + 1) = some (Char.ofNat 61)
      · rw [if_pos h1'] at h; injection h with ht _; subst ht; decide
      · rw [if_neg h1'] at h; injection h with ht _; subst ht
        intro _ ha; exact absurd rfl ha
    rw [if_neg h1] at h
    by_cases h2 : c = Char.ofNat 33
    · subst h2
      rw [if_pos rfl] at h
      by_cases h2' : charAt st.src (skipWS st.src st.pos + 1) = some (Char.ofNat 61)
      · rw [if_pos h2'] at h; injection h with ht _; subst ht; decide
      · rw [if_neg h2'] at h; injection h with ht _; subst ht; decide
    rw [if_neg h2] at h
    by_cases h3 : c = Char.ofNat 38
    · subst h3
      rw [if_pos rfl] at h
      by_cases h3' : charAt st.src (skipWS st.src st.pos + 1) = some (Char.ofNat 38)
      · rw [if_pos h3'] at h; injection h with ht _; subst ht; decide
      · rw [if_neg h3'] at h; injection h with ht _; subst ht; decide
    rw [if_neg h3] at h
    by_cases h4 : c = Char.ofNat 124
    · subst h4
      rw [if_pos rfl] at h
      by_cases h4' : charAt st.src (skipWS st.src st.pos + 1) = some (Char.ofNat 124)
      · rw [if_pos h4'] at h; injection h with ht _; subst ht; decide
      · rw [if_neg h4'] at h; injection h with ht _; subst ht; decide
    rw [if_neg h4] at h
    by_cases h5 : c = Char.ofNat 94
    · subst h5; rw [if_pos rfl] at h; injection h with ht _; subst ht; decide
    rw [if_neg h5] at h
    by_cases h6 : c = Char.ofNat 43
    · subst h6; rw [if_pos rfl] at h; injection h with ht _; subst ht; decide
    rw [if_neg h6] at h
    by_cases h7 : c = Char.ofNat 45
    · subst h7; rw [if_pos rfl] at h; injection h with ht _; subst ht; decide
    rw [if_neg h7] at h
    by_cases h8 : c = Char.ofNat 42
    · subst h8; rw [if_pos rfl] at h; injection h with ht _; subst ht; decide
    rw [if_neg h8] at h
    by_cases h9 : c = Char.ofNat 47
    · subst h9; rw [if_pos rfl] at h; injection h with ht _; subst ht; decide
    rw [if_neg h9] at h
    by_cases h10 : c = Char.ofNat 40
    · subst h10; rw [if_pos rfl] at h; injection h with ht _; subst ht
      intro hf _; exact absurd hf (by decide)
    rw [if_neg h10] at h
    by_cases h11 : c = Char.ofNat 41
    · subst h11; rw [if_pos rfl] at h; injection h with ht _; subst ht
      intro hf _; exact absurd hf (by decide)
    rw [if_neg h11] at h
    by_cases h12 : c = Char.ofNat 123
    · subst h12; rw [if_pos rfl] at h; injection h with ht _; subst ht
      intro hf _; exact absurd hf (by decide)
    rw [if_neg h12] at h
    by_cases h13 : c = Char.ofNat 125
    · subst h13; rw [if_pos rfl] at h; injection h with ht _; subst ht
      intro hf _; exact absurd hf (by decide)
    rw [if_neg h13] at h
    by_cases h14 : c = Char.ofNat 44
    · subst h14; rw [if_pos rfl] at h; injection h with ht _; subst ht
      intro hf _; exact absurd hf (by decide)
    rw [if_neg h14] at h
    by_cases h15 : (c = Char.ofNat 34 ∨ c = Char.ofNat 39)
    · rw [if_pos h15] at h; injection h with ht _; subst ht
      intro hf _
      exact absurd hf (show ¬ (infixFns TokenType.STRING = some InfixTag.binOp) from by decide)
    rw [if_neg h15] at h
    by_cases h16 : c = Char.ofNat 59
    · subst h16; rw [if_pos rfl] at h; injection h with ht _; subst ht
      intro hf _; exact absurd hf (by decide)
    rw [if_neg h16] at h
    by_cases h17 : c = Char.ofNat 60
    · subst h17
      rw [if_pos rfl] at h
      by_cases h17' : charAt st.src (skipWS st.src st.pos + 1) = some (Char.ofNat 61)
      · rw [if_pos h17'] at h; injection h with ht _; subst ht; decide
      · rw [if_neg h17'] at h; injection h with ht _; subst ht; decide
    rw [if_neg h17] at h
    by_cases h18 : c = Char.ofNat 62
    · subst h18
      rw [if_pos rfl] at h
      by_cases h18' : charAt st.src (skipWS st.src st.pos + 1) = some (Char.ofNat 61)
      · rw [if_pos h18'] at h; injection h with ht _; subst ht; decide
      · rw [if_neg h18'] at h; injection h with ht _; subst ht; decide
    rw [if_neg h18] at h
    by_cases h19 : isLetterChar c = true
    · rw [if_pos h19] at h
      injection h with ht _
      subst ht
      exact lookupTokenType_good _
    rw [if_neg h19] at h
    by_cases h20 : isDigitChar c = true
    · rw [if_pos h20] at h; injection h with ht _; subst ht
      intro hf _
      exact absurd hf (show ¬ (infixFns TokenType.INT = some InfixTag.binOp) from by decide)
    rw [if_neg h20] at h
    injection h with ht _
    subst ht
    intro hf _
    exact absurd hf (show ¬ (infixFns TokenType.ILLEGAL = some InfixTag.binOp) from by decide)

/-- Every token produced by the lexer satisfies `GoodTok`. -/
theorem lexGood (st : LexState) : GoodTok (nextToken st).1 :=
  lexGood_eq st (nextToken st).1 (nextToken st).2 rfl

theorem noAsgSL_append (a b : List Stmt) :
    noAsgSL (a ++ b) = (noAsgSL a && noAsgSL b) := by
  induction a with
  | nil => simp [noAsgSL]
  | cons s r ih => simp [noAsgSL, ih, Bool.and_assoc]

theorem noAsgEL_append (a b : List Expr) :
    noAsgEL (a ++ b) = (noAsgEL a && noAsgEL b) := by
  induction a with
  | nil => simp [noAsgEL]
  | cons e r ih => simp [noAsgEL, ih, Bool.and_assoc]

theorem padvance_good {st : PState} (h : PGood st) : PGood (padvance st) :=
  ⟨h.2, lexGood st.lex⟩

theorem pushErr_good {st : PState} (m : String) (h : PGood st) :
    PGood (pushErr st m) := h

theorem expectedToken_good (tt : TokenType) {st : PState} (h : PGood st) :
    PGood (expectedToken tt st).2 := by
  unfold expectedToken
  split
  · exact padvance_good h
  · exact h

theorem initParser_good (src : List Char) : PGood (initParser src) :=
  ⟨lexGood (initLex src), lexGood (nextToken (initLex src)).2⟩

theorem precedenceOf_pos (t : TokenType) : 1 ≤ precedenceOf t := by
  cases t <;> decide

/-!  The key parser invariant: parsing functions called with precedence
at least `LOWEST` (which is how every call site invokes them) never
build an `Infix` node with operator `=`, because `ASSIGN` has no
`PRECEDENCES` entry and thus never passes the Pratt loop's guard. -/

mutual
theorem parseExpression_good (f prec : Nat) (st : PState) (hst : PGood st)
    (hp : 1 ≤ prec) :
    noAsgEO (parseExpression f prec st).1 = true
      ∧ PGood (parseExpression f prec st).2 := by
  cases f with
  | zero => exact ⟨rfl, hst⟩
  | succ f =>
    cases hpf : prefixFns st.cur.ttype with
    | none =>
      simp only [parseExpression, hpf]
      exact ⟨rfl, hst⟩
    | some tag =>
      rcases hpp : parsePrefixFn f tag st with ⟨left, st1⟩
      have h1 := parsePrefixFn_good f tag st hst
      rw [hpp] at h1
      have h2 := parseExprLoop_good f prec left st1 h1.2 h1.1 hp
      simp only [parseExpression, hpf, hpp]
      exact h2
termination_by (f, 1)

theorem parseExprLoop_good (f prec : Nat) (left : Option Expr) (st : PState)
    (hst : PGood st) (hl : noAsgEO left = true) (hp : 1 ≤ prec) :
    noAsgEO (parseExprLoop f prec left st).1 = true
      ∧ PGood (parseExprLoop f prec left st).2 := by
  cases f with
  | zero => exact ⟨hl, hst⟩
  | succ f =>
    by_cases hcond : (st.peek.ttype ≠ TokenType.SEMICOLON
        ∧ prec < precedenceOf st.peek.ttype)
    · cases hif : infixFns st.peek.ttype with
      | none =>
        simp only [parseExprLoop, if_pos hcond, hif]
        exact ⟨hl, hst⟩
      | some tag =>
        have hne : st.peek.ttype ≠ TokenType.ASSIGN := by
          intro ha
          have h2 := hcond.2
          rw [ha] at h2
          simp only [precedenceOf, precLOWEST] at h2
          omega
        have hlit : tag = InfixTag.binOp → st.peek.literal ≠ "=" :=
          fun htag => hst.2 (htag ▸ hif) hne
        cases left with
        | none =>
          simp only [parseExprLoop, if_pos hcond, hif]
          exact ⟨rfl, padvance_good hst⟩
        | some l =>
          rcases hfn : parseInfixFn f tag l (padvance st) with ⟨e, st2⟩
          have h3 := parseInfixFn_good f tag l (padvance st) (padvance_good hst)
            hl hlit
          rw [hfn] at h3
          have h4 := parseExprLoop_good f prec (some e) st2 h3.2 h3.1 hp
          simp only [parseExprLoop, if_pos hcond, hif, hfn]
          exact h4
    · simp only [parseExprLoop, if_neg hcond]
      exact ⟨hl, hst⟩
termination_by (f, 1)

theorem parseInfixFn_good (f : Nat) (tag : InfixTag) (l : Expr) (st : PState)
    (hst : PGood st) (hl : noAsgE l = true)
    (hlit : tag = InfixTag.binOp → st.cur.literal ≠ "=") :
    noAsgE (parseInfixFn f tag l st).1 = true
      ∧ PGood (parseInfixFn f tag l st).2 := by
  cases f with
  | zero => exact ⟨hl, hst⟩
  | succ f =>
    cases tag with
    | binOp =>
      rcases hpe : parseExpression f (precedenceOf st.cur.ttype) (padvance st)
        with ⟨right, st2⟩
      have h1 := parseExpression_good f (precedenceOf st.cur.ttype)
        (padvance st) (padvance_good hst) (precedenceOf_pos _)
      rw [hpe] at h1
      simp only [parseInfixFn, hpe]
      refine ⟨?_, h1.2⟩
      have hop : st.cur.literal ≠ "=" := hlit rfl
      simp [noAsgE, hop, hl, h1.1]
    | callOp =>
      rcases hca : parseCallArgs f st with ⟨args, st1⟩
      have h1 := parseCallArgs_good f st hst
      rw [hca] at h1
      simp only [parseInfixFn, hca]
      refine ⟨?_, h1.2⟩
      simp [noAsgE, hl, h1.1]
termination_by (f, 1)

theorem parseCallArgs_good (f : Nat) (st : PState) (hst : PGood st) :
    noAsgELO (parseCallArgs f st).1 = true ∧ PGood (parseCallArgs f st).2 := by
  cases f with
  | zero => exact ⟨rfl, hst⟩
  | succ f =>
    by_cases hrp : st.peek.ttype = TokenType.RPAREN
    · simp only [parseCallArgs, if_pos hrp]
      exact ⟨rfl, padvance_good hst⟩
    · simp only [parseCallArgs, if_neg hrp]
      exact parseCallLoop_good f (padvance st) [] (padvance_good hst) rfl
termination_by (f, 1)

theorem parseCallLoop_good (f : Nat) (st : PState) (acc : List Expr)
    (hst : PGood st) (hacc : noAsgEL acc = true) :
    noAsgELO (parseCallLoop f st acc).1 = true
      ∧ PGood (parseCallLoop f st acc).2 := by
  cases f with
  | zero => exact ⟨rfl, hst⟩
  | succ f =>
    rcases hpe : parseExpression f precLOWEST st with ⟨e?, st1⟩
    have h1 := parseExpression_good f precLOWEST st hst (by decide)
    rw [hpe] at h1
    cases e? with
    | none =>
      by_cases hcm : st1.peek.ttype = TokenType.COMMA
      · have h2 := parseCallLoop_good f (padvance (padvance st1)) acc
          (padvance_good (padvance_good h1.2)) hacc
        simp only [parseCallLoop, hpe, if_pos hcm]
        exact h2
      · rcases het : expectedToken TokenType.RPAREN st1 with ⟨ok, st2⟩
        have h3 : PGood st2 := by
          have hh := expectedToken_good TokenType.RPAREN h1.2
          rw [het] at hh
          exact hh
        cases ok
        · simp only [parseCallLoop, hpe, if_neg hcm, het]
          exact ⟨rfl, h3⟩
        · simp only [parseCallLoop, hpe, if_neg hcm, het]
          exact ⟨hacc, h3⟩
    | some e =>
      have hacc' : noAsgEL (acc ++ [e]) = true := by
        rw [noAsgEL_append]
        simp only [noAsgEL, Bool.and_true, Bool.and_eq_true]
        exact ⟨hacc, h1.1⟩
      by_cases hcm : st1.peek.ttype = TokenType.COMMA
      · have h2 := parseCallLoop_good f (padvance (padvance st1)) (acc ++ [e])
          (padvance_good (padvance_good h1.2)) hacc'
        simp only [parseCallLoop, hpe, if_pos hcm]
        exact h2
      · rcases het : expectedToken TokenType.RPAREN st1 with ⟨ok, st2⟩
        have h3 : PGood st2 := by
          have hh := expectedToken_good TokenType.RPAREN h1.2
          rw [het] at hh
          exact hh
        cases ok
        · simp only [parseCallLoop, hpe, if_neg hcm, het]
          exact ⟨rfl, h3⟩
        · simp only [parseCallLoop, hpe, if_neg hcm, het]
          exact ⟨hacc', h3⟩
termination_by (f, 1)

theorem parsePrefixFn_good (f : Nat) (tag : PrefixTag) (st : PState)
    (hst : PGood st) :
    noAsgEO (parsePrefixFn f tag st).1 = true
      ∧ PGood (parsePrefixFn f tag st).2 := by
  cases f with
  | zero => exact ⟨rfl, hst⟩
  | succ f =>
    cases tag with
    | boolTag => exact ⟨rfl, hst⟩
    | identTag => exact ⟨rfl, hst⟩
    | strTag => exact ⟨rfl, hst⟩
    | intTag =>
      cases hti : parseIntLit st.cur.literal with
      | none =>
        simp only [parsePrefixFn, parseInteger, hti]
        exact ⟨rfl, hst⟩
      | some n =>
        simp only [parsePrefixFn, parseInteger, hti]
        exact ⟨rfl, hst⟩
    | unaryTag =>
      rcases hpe : parseExpression f precUNARY (padvance st) with ⟨right, st2⟩
      have h1 := parseExpression_good f precUNARY (padvance st)
        (padvance_good hst) (by decide)
      rw [hpe] at h1
      simp only [parsePrefixFn, hpe]
      exact ⟨h1.1, h1.2⟩
    | groupTag =>
      rcases hpe : parseExpression f precLOWEST (padvance st) with ⟨e, st2⟩
      have h1 := parseExpression_good f precLOWEST (padvance st)
        (padvance_good hst) (by decide)
      rw [hpe] at h1
      rcases het : expectedToken TokenType.RPAREN st2 with ⟨ok, st3⟩
      have h3 : PGood st3 := by
        have hh := expectedToken_good TokenType.RPAREN h1.2
        rw [het] at hh
        exact hh
      cases ok
      · simp only [parsePrefixFn, hpe, het]
        exact ⟨rfl, h3⟩
      · simp only [parsePrefixFn, hpe, het]
        exact ⟨h1.1, h3⟩
    | ifTag =>
      simp only [parsePrefixFn]
      exact parseIf_good f st hst
    | funcTag =>
      simp only [parsePrefixFn]
      exact parseFunction_good f st hst
termination_by (f, 1)

theorem parseIf_good (f : Nat) (st : PState) (hst : PGood st) :
    noAsgEO (parseIf f st).1 = true ∧ PGood (parseIf f st).2 := by
  cases f with
  | zero => exact ⟨rfl, hst⟩
  | succ f =>
    rcases h1 : expectedToken TokenType.LPAREN st with ⟨ok1, st1⟩
    have g1 : PGood st1 := by
      have hh := expectedToken_good TokenType.LPAREN hst
      rw [h1] at hh
      exact hh
    cases ok1
    · simp only [parseIf, h1]
      exact ⟨rfl, g1⟩
    · rcases h2 : parseExpression f precLOWEST (padvance st1) with ⟨cond, st3⟩
      have g2 := parseExpression_good f precLOWEST (padvance st1)
        (padvance_good g1) (by decide)
      rw [h2] at g2
      rcases h3 : expectedToken TokenType.RPAREN st3 with ⟨ok2, st4⟩
      have g3 : PGood st4 := by
        have hh := expectedToken_good TokenType.RPAREN g2.2
        rw [h3] at hh
        exact hh
      cases ok2
      · simp only [parseIf, h1, h2, h3]
        exact ⟨rfl, g3⟩
      · rcases h4 : expectedToken TokenType.LBRACE st4 with ⟨ok3, st5⟩
        have g4 : PGood st5 := by
          have hh := expectedToken_good TokenType.LBRACE g3
          rw [h4] at hh
          exact hh
        cases ok3
        · simp only [parseIf, h1, h2, h3, h4]
          exact ⟨rfl, g4⟩
        · rcases h5 : parseBlock f st5 with ⟨cons, st6⟩
          have g5 := parseBlock_good f st5 g4
          rw [h5] at g5
          by_cases hel : st6.peek.ttype = TokenType.ELSE
          · rcases h6 : expectedToken TokenType.LBRACE (padvance st6) with ⟨ok4, st8⟩
            have g6 : PGood st8 := by
              have hh := expectedToken_good TokenType.LBRACE (padvance_good g5.2)
              rw [h6] at hh
              exact hh
            cases ok4
            · simp only [parseIf, h1, h2, h3, h4, h5, if_pos hel, h6]
              exact ⟨rfl, g6⟩
            · rcases h7 : parseBlock f st8 with ⟨alt, st9⟩
              have g7 := parseBlock_good f st8 g6
              rw [h7] at g7
              simp only [parseIf, h1, h2, h3, h4, h5, if_pos hel, h6, h7]
              refine ⟨?_, g7.2⟩
              simp only [noAsgEO, noAsgE, noAsgBO, Bool.and_eq_true]
              exact ⟨⟨g2.1, g5.1⟩, g7.1⟩
          · simp only [parseIf, h1, h2, h3, h4, h5, if_neg hel]
            refine ⟨?_, g5.2⟩
            simp only [noAsgEO, noAsgE, noAsgBO, Bool.and_eq_true, Bool.and_true]
            exact ⟨g2.1, g5.1⟩
termination_by (f, 1)

theorem parseFunction_good (f : Nat) (st : PState) (hst : PGood st) :
    noAsgEO (parseFunction f st).1 = true ∧ PGood (parseFunction f st).2 := by
  cases f with
  | zero => exact ⟨rfl, hst⟩
  | succ f =>
    by_cases hid : st.peek.ttype = TokenType.IDENT
    · rcases h1 : expectedToken TokenType.LPAREN (padvance st) with ⟨ok1, st2⟩
      have g1 : PGood st2 := by
        have hh := expectedToken_good TokenType.LPAREN (padvance_good hst)
        rw [h1] at hh
        exact hh
      cases ok1
      · simp only [parseFunction, if_pos hid, h1]
        exact ⟨rfl, g1⟩
      · rcases h2 : parseFuncParams f st2 with ⟨params, st3⟩
        have g2 : PGood st3 := by
          have hh := parseFuncParams_good f st2 g1
          rw [h2] at hh
          exact hh
        rcases h3 : expectedToken TokenType.LBRACE st3 with ⟨ok2, st4⟩
        have g3 : PGood st4 := by
          have hh := expectedToken_good TokenType.LBRACE g2
          rw [h3] at hh
          exact hh
        cases ok2
        · simp only [parseFunction, if_pos hid, h1, h2, h3]
          exact ⟨rfl, g3⟩
        · rcases h4 : parseBlock f st4 with ⟨body, st5⟩
          have g4 := parseBlock_good f st4 g3
          rw [h4] at g4
          simp only [parseFunction, if_pos hid, h1, h2, h3, h4]
          exact ⟨g4.1, g4.2⟩
    · rcases h1 : expectedToken TokenType.LPAREN st with ⟨ok1, st2⟩
      have g1 : PGood st2 := by
        have hh := expectedToken_good TokenType.LPAREN hst
        rw [h1] at hh
        exact hh
      cases ok1
      · simp only [parseFunction, if_neg hid, h1]
        exact ⟨rfl, g1⟩
      · rcases h2 : parseFuncParams f st2 with ⟨params, st3⟩
        have g2 : PGood st3 := by
          have hh := parseFuncParams_good f st2 g1
          rw [h2] at hh
          exact hh
        rcases h3 : expectedToken TokenType.LBRACE st3 with ⟨ok2, st4⟩
        have g3 : PGood st4 := by
          have hh := expectedToken_good TokenType.LBRACE g2
          rw [h3] at hh
          exact hh
        cases ok2
        · simp only [parseFunction, if_neg hid, h1, h2, h3]
          exact ⟨rfl, g3⟩
        · rcases h4 : parseBlock f st4 with ⟨body, st5⟩
          have g4 := parseBlock_good f st4 g3
          rw [h4] at g4
          simp only [parseFunction, if_neg hid, h1, h2, h3, h4]
          exact ⟨g4.1, g4.2⟩
termination_by (f, 1)

theorem parseFuncParams_good (f : Nat) (st : PState) (hst : PGood st) :
    PGood (parseFuncParams f st).2 := by
  cases f with
  | zero => exact hst
  | succ f =>
    by_cases hrp : st.peek.ttype = TokenType.RPAREN
    · simp only [parseFuncParams, if_pos hrp]
      exact padvance_good hst
    · simp only [parseFuncParams, if_neg hrp]
      exact parseParamsLoop_good f (padvance st) _ (padvance_good hst)

theorem parseParamsLoop_good (f : Nat) (st : PState) (acc : List String)
    (hst : PGood st) : PGood (parseParamsLoop f st acc).2 := by
  cases f with
  | zero => exact hst
  | succ f =>
    by_cases hcm : st.peek.ttype = TokenType.COMMA
    · simp only [parseParamsLoop, if_pos hcm]
      exact parseParamsLoop_good f _ _ (padvance_good (padvance_good hst))
    · rcases het : expectedToken TokenType.RPAREN st with ⟨ok, st1⟩
      have h3 : PGood st1 := by
        have hh := expectedToken_good TokenType.RPAREN hst
        rw [het] at hh
        exact hh
      cases ok
      · simp only [parseParamsLoop, if_neg hcm, het]
        exact h3
      · simp only [parseParamsLoop, if_neg hcm, het]
        exact h3
termination_by (f, 1)

theorem parseBlock_good (f : Nat) (st : PState) (hst : PGood st) :
    noAsgB (parseBlock f st).1 = true ∧ PGood (parseBlock f st).2 := by
  cases f with
  | zero => exact ⟨rfl, hst⟩
  | succ f =>
    simp only [parseBlock]
    exact parseBlockLoop_good f (padvance st) [] (padvance_good hst) rfl
termination_by (f, 1)

theorem parseBlockLoop_good (f : Nat) (st : PState) (acc : List Stmt)
    (hst : PGood st) (hacc : noAsgSL acc = true) :
    noAsgB (parseBlockLoop f st acc).1 = true
      ∧ PGood (parseBlockLoop f st acc).2 := by
  cases f with
  | zero => exact ⟨hacc, hst⟩
  | succ f =>
    by_cases hcond : (st.cur.ttype ≠ TokenType.RBRACE
        ∧ st.cur.ttype ≠ TokenType.EOF)
    · rcases hs : parseStatement f st with ⟨s?, st1⟩
      have h1 := parseStatement_good f st hst
      rw [hs] at h1
      cases s? with
      | none =>
        have h2 := parseBlockLoop_good f (padvance st1) acc
          (padvance_good h1.2) hacc
        simp only [parseBlockLoop, if_pos hcond, hs]
        exact h2
      | some s =>
        have hacc' : noAsgSL (acc ++ [s]) = true := by
          rw [noAsgSL_append]
          simp only [noAsgSL, Bool.and_true, Bool.and_eq_true]
          exact ⟨hacc, h1.1⟩
        have h2 := parseBlockLoop_good f (padvance st1) (acc ++ [s])
          (padvance_good h1.2) hacc'
        simp only [parseBlockLoop, if_pos hcond, hs]
        exact h2
    · simp only [parseBlockLoop, if_neg hcond]
      exact ⟨hacc, hst⟩
termination_by (f, 1)

theorem parseStatement_good (f : Nat) (st : PState) (hst : PGood st) :
    noAsgSO (parseStatement f st).1 = true ∧ PGood (parseStatement f st).2 := by
  cases f with
  | zero => exact ⟨rfl, hst⟩
  | succ f =>
    by_cases hlet : (st.cur.ttype = TokenType.LET ∨ st.cur.ttype = TokenType.VAR
        ∨ st.cur.ttype = TokenType.CONST)
    · simp only [parseStatement, if_pos hlet]
      exact parseLetStatement_good f st hst
    · by_cases hret : st.cur.ttype = TokenType.RETURN
      · simp only [parseStatement, if_neg hlet, if_pos hret]
        exact parseReturnStatement_good f st hst
      · simp only [parseStatement, if_neg hlet, if_neg hret]
        exact parseExpressionStatement_good f st hst
termination_by (f, 1)

theorem parseLetStatement_good (f : Nat) (st : PState) (hst : PGood st) :
    noAsgSO (parseLetStatement f st).1 = true
      ∧ PGood (parseLetStatement f st).2 := by
  cases f with
  | zero => exact ⟨rfl, hst⟩
  | succ f =>
    rcases h1 : expectedToken TokenType.IDENT st with ⟨ok1, st1⟩
    have g1 : PGood st1 := by
      have hh := expectedToken_good TokenType.IDENT hst
      rw [h1] at hh
      exact hh
    cases ok1
    · simp only [parseLetStatement, h1]
      exact ⟨rfl, g1⟩
    · rcases h2 : expectedToken TokenType.ASSIGN st1 with ⟨ok2, st2⟩
      have g2 : PGood st2 := by
        have hh := expectedToken_good TokenType.ASSIGN g1
        rw [h2] at hh
        exact hh
      cases ok2
      · simp only [parseLetStatement, h1, h2]
        exact ⟨rfl, g2⟩
      · rcases h3 : parseExpression f precLOWEST (padvance st2) with ⟨v, st4⟩
        have g3 := parseExpression_good f precLOWEST (padvance st2)
          (padvance_good g2) (by decide)
        rw [h3] at g3
        by_cases hsemi : st4.peek.ttype = TokenType.SEMICOLON
        · simp only [parseLetStatement, h1, h2, h3, if_pos hsemi]
          exact ⟨g3.1, padvance_good g3.2⟩
        · simp only [parseLetStatement, h1, h2, h3, if_neg hsemi]
          exact ⟨g3.1, g3.2⟩
termination_by (f, 1)

theorem parseReturnStatement_good (f : Nat) (st : PState) (hst : PGood st) :
    noAsgSO (parseReturnStatement f st).1 = true
      ∧ PGood (parseReturnStatement f st).2 := by
  cases f with
  | zero => exact ⟨rfl, hst⟩
  | succ f =>
    rcases h1 : parseExpression f precLOWEST (padvance st) with ⟨v, st2⟩
    have g1 := parseExpression_good f precLOWEST (padvance st)
      (padvance_good hst) (by decide)
    rw [h1] at g1
    by_cases hsemi : st2.peek.ttype = TokenType.SEMICOLON
    · simp only [parseReturnStatement, h1, if_pos hsemi]
      exact ⟨g1.1, padvance_good g1.2⟩
    · simp only [parseReturnStatement, h1, if_neg hsemi]
      exact ⟨g1.1, g1.2⟩
termination_by (f, 1)

theorem parseExpressionStatement_good (f : Nat) (st : PState) (hst : PGood st) :
    noAsgSO (parseExpressionStatement f st).1 = true
      ∧ PGood (parseExpressionStatement f st).2 := by
  cases f with
  | zero => exact ⟨rfl, hst⟩
  | succ f =>
    rcases h1 : parseExpression f precLOWEST st with ⟨e, st1⟩
    have g1 := parseExpression_good f precLOWEST st hst (by decide)
    rw [h1] at g1
    by_cases hsemi : st1.peek.ttype = TokenType.SEMICOLON
    · simp only [parseExpressionStatement, h1, if_pos hsemi]
      exact ⟨g1.1, padvance_good g1.2⟩
    · simp only [parseExpressionStatement, h1, if_neg hsemi]
      exact ⟨g1.1, g1.2⟩
termination_by (f, 1)
end

theorem parseProgramLoop_good (f : Nat) (st : PState) (acc : List Stmt)
    (hst : PGood st) (hacc : noAsgSL acc = true) :
    noAsgSL (parseProgramLoop f st acc).1 = true := by
  cases f with
  | zero => exact hacc
  | succ f =>
    by_cases heof : st.cur.ttype ≠ TokenType.EOF
    · rcases hs : parseStatement f st with ⟨s?, st1⟩
      have h1 := parseStatement_good f st hst
      rw [hs] at h1
      cases s? with
      | none =>
        have h2 := parseProgramLoop_good f (padvance st1) acc
          (padvance_good h1.2) hacc
        simp only [parseProgramLoop, if_pos heof, hs]
        exact h2
      | some s =>
        have hacc' : noAsgSL (acc ++ [s]) = true := by
          rw [noAsgSL_append]
          simp only [noAsgSL, Bool.and_true, Bool.and_eq_true]
          exact ⟨hacc, h1.1⟩
        have h2 := parseProgramLoop_good f (padvance st1) (acc ++ [s])
          (padvance_good h1.2) hacc'
        simp only [parseProgramLoop, if_pos heof, hs]
        exact h2
    · simp only [parseProgramLoop, if_neg heof]
      exact hacc

/-- No program ever parses to an AST containing an `Infix` node whose
operator is `=`. -/
theorem parseProgram_noAsg (f : Nat) (src : List Char) :
    noAsgSL (parseProgram f src).1 = true :=
  parseProgramLoop_good f (initParser src) [] (initParser_good src) rfl

/-!  Evaluator lemmas. -/

/-- Objects of different runtime types are never identical. -/
theorem objIs_cross {l r : Obj} (h : objType l ≠ objType r) :
    objIs l r = false := by
  cases l <;> cases r <;> first | rfl | exact absurd rfl h

/-- When the operands are neither both integers nor a string on the
left with a string or integer on the right, `_evaluate_infix_expr`
falls through to the identity-comparison and type-error chain. -/
theorem evalInfixExpr_fallback (op : String) (l r : Obj)
    (h1 : ¬(objType l = .INTEGER ∧ objType r = .INTEGER))
    (h2 : ¬(objType l = .STRING ∧ (objType r = .STRING ∨ objType r = .INTEGER))) :
    evalInfixExpr op l r =
      (if op = "==" then .ok (toBooleanObject (objIs l r))
       else if op = "!=" then .ok (toBooleanObject (!objIs l r))
       else if objType l ≠ objType r then
         .ok (.verr ("Type mismatch: " ++ (objType l).tname ++ " " ++ op
           ++ " " ++ (objType r).tname))
       else
         .ok (.verr ("Invalid operation: " ++ (objType l).tname ++ " " ++ op
           ++ " " ++ (objType r).tname))) := by
  cases l <;> cases r <;>
    first
      | rfl
      | exact absurd (And.intro rfl rfl) h1
      | exact absurd (And.intro rfl (Or.inl rfl)) h2
      | exact absurd (And.intro rfl (Or.inr rfl)) h2

/-- A clean prefix is skipped by the program-statement loop: it just
moves the environment forward (the accumulated result of a non-empty
tail is ignored by the next iteration). -/
theorem runStmtsProgram_clean_skip (f : Nat) {pre : List Stmt}
    {env env₁ : Env} (hc : CleanSeq f pre env env₁) (s : Stmt)
    (post : List Stmt) :
    ∀ r0, runStmtsProgram (evalStmt f) (pre ++ s :: post) r0 env
      = runStmtsProgram (evalStmt f) (s :: post) none env₁ := by
  induction hc with
  | nil env => intro r0; rfl
  | cons hs hret herr htail ih =>
    intro r0
    rename_i s' rest env' env₁' env₂' r
    rw [List.cons_append]
    show (match evalStmt f s' env' with
      | Except.error c => Except.error c
      | Except.ok (r, env'') =>
        match r with
        | some (Obj.vret v) => Except.ok (some v, env'')
        | some (Obj.verr m) => Except.ok (some (Obj.verr m), env'')
        | _ => runStmtsProgram (evalStmt f) (rest ++ s :: post) r env'') = _
    rw [hs]
    rcases r with _ | o
    · exact ih none
    · cases o with
      | vret v => exact absurd rfl (hret v)
      | verr m => exact absurd rfl (herr m)
      | vint n => exact ih _
      | vbool b => exact ih _
      | vnull => exact ih _
      | vstr str => exact ih _
      | vfun p b e n => exact ih _
      | vbuiltin => exact ih _

/-- The block-statement loop likewise skips a clean prefix. -/
theorem runStmtsBlock_clean_skip (f : Nat) {pre : List Stmt}
    {env env₁ : Env} (hc : CleanSeq f pre env env₁) (s : Stmt)
    (post : List Stmt) :
    ∀ r0, runStmtsBlock (evalStmt f) (pre ++ s :: post) r0 env
      = runStmtsBlock (evalStmt f) (s :: post) none env₁ := by
  induction hc with
  | nil env => intro r0; rfl
  | cons hs hret herr htail ih =>
    intro r0
    rename_i s' rest env' env₁' env₂' r
    rw [List.cons_append]
    show (match evalStmt f s' env' with
      | Except.error c => Except.error c
      | Except.ok (r, env'') =>
        match r with
        | some (Obj.vret v) => Except.ok (some (Obj.vret v), env'')
        | some (Obj.verr m) => Except.ok (some (Obj.verr m), env'')
        | _ => runStmtsBlock (evalStmt f) (rest ++ s :: post) r env'') = _
    rw [hs]
    rcases r with _ | o
    · exact ih none
    · cases o with
      | vret v => exact absurd rfl (hret v)
      | verr m => exact absurd rfl (herr m)
      | vint n => exact ih _
      | vbool b => exact ih _
      | vnull => exact ih _
      | vstr str => exact ih _
      | vfun p b e n => exact ih _
      | vbuiltin => exact ih _

theorem lexIter_src (src : List Char) (n : Nat) : (lexIter src n).src = src := by
  induction n with
  | zero => rfl
  | succ n ih => rw [lexIter, nextToken_src, ih]

theorem lexIter_pos (src : List Char) (n : Nat) : n ≤ (lexIter src n).pos := by
  induction n with
  | zero => exact Nat.zero_le _
  | succ n ih =>
    have := nextToken_pos (lexIter src n)
    rw [lexIter]
    omega

/-!  Claims. -/

/-- C1 counterexample: evaluating the well-formed integer division
`5 / 0` does not return an Object; it raises a native
`ZeroDivisionError` (modelled as the `zeroDiv` crash), so the evaluator
is not total as the claim states. -/
theorem claim_C1_counterexample :
    evalExpr 3 (Expr.infixE (Expr.intLit (some 5)) "/"
        (some (Expr.intLit (some 0)))) env0
      = Except.error Crash.zeroDiv := rfl

/-- C1 (amended): ill-typed infix operations are reported as `Error`
objects, but the evaluator is not total: integer division by zero
raises a native `ZeroDivisionError` and applying a user-defined
function to fewer arguments than its parameters raises a native
`IndexError` while binding parameters. -/
theorem claim_C1_amended (f : Nat) (env : Env) (a : Int) (body : Block)
    (fenv : Env) (nm : String) :
    evalExpr (f + 2) (Expr.infixE (Expr.intLit (some a)) "/"
        (some (Expr.intLit (some 0)))) env = Except.error Crash.zeroDiv
    ∧ applyFunc (f + 1) (Obj.vfun ["x", "y"] body fenv nm) [Obj.vint a]
        = Except.error Crash.indexErr
    ∧ evalExpr (f + 2) (Expr.infixE (Expr.boolLit (some true)) "+"
        (some (Expr.intLit (some a)))) env
      = .ok (some (.verr "Type mismatch: BOOLEAN + INTEGER"), env) :=
  ⟨rfl, rfl, rfl⟩

/-- C2: when the statements before `s` evaluate cleanly (no `Return`,
no `Error`) and `s` evaluates to the wrapper `Return(v)`, evaluating
the sequence as a `Program` yields the unwrapped `v` immediately
(ignoring any following statements), evaluating it as a `Block` yields
the `Return` wrapper itself, and applying a user function whose body
evaluates to `Return(v)` yields `v`; an `Error` is likewise returned
immediately by both `Program` and `Block` evaluation. -/
theorem claim_C2 (f : Nat) :
    (∀ (pre : List Stmt) (s : Stmt) (post : List Stmt) (env env₁ env₂ : Env)
        (v : Obj),
      CleanSeq f pre env env₁ →
      evalStmt f s env₁ = .ok (some (.vret v), env₂) →
      evalProgram (f + 1) (pre ++ s :: post) env = .ok (some v, env₂)
        ∧ evalBlock (f + 1) (Block.mk (pre ++ s :: post)) env
            = .ok (some (.vret v), env₂))
    ∧ (∀ (pre : List Stmt) (s : Stmt) (post : List Stmt) (env env₁ env₂ : Env)
        (m : String),
      CleanSeq f pre env env₁ →
      evalStmt f s env₁ = .ok (some (.verr m), env₂) →
      evalProgram (f + 1) (pre ++ s :: post) env = .ok (some (.verr m), env₂)
        ∧ evalBlock (f + 1) (Block.mk (pre ++ s :: post)) env
            = .ok (some (.verr m), env₂))
    ∧ (∀ (params : List String) (body : Block) (fenv : Env) (nm : String)
        (args : List Obj) (ext : Env) (env₃ : Env) (v : Obj),
      extFuncEnv params args fenv = .ok ext →
      evalBlock f body ext = .ok (some (.vret v), env₃) →
      applyFunc (f + 1) (.vfun params body fenv nm) args = .ok v) := by
  refine ⟨?_, ?_, ?_⟩
  · intro pre s post env env₁ env₂ v hc hs
    constructor
    · show runStmtsProgram (evalStmt f) (pre ++ s :: post) none env = _
      rw [runStmtsProgram_clean_skip f hc s post none]
      show (match evalStmt f s env₁ with
        | Except.error c => Except.error c
        | Except.ok (r, env'') =>
          match r with
          | some (Obj.vret v') => Except.ok (some v', env'')
          | some (Obj.verr m') => Except.ok (some (Obj.verr m'), env'')
          | _ => runStmtsProgram (evalStmt f) post r env'') = _
      rw [hs]
    · show runStmtsBlock (evalStmt f) (pre ++ s :: post) none env = _
      rw [runStmtsBlock_clean_skip f hc s post none]
      show (match evalStmt f s env₁ with
        | Except.error c => Except.error c
        | Except.ok (r, env'') =>
          match r with
          | some (Obj.vret v') => Except.ok (some (Obj.vret v'), env'')
          | some (Obj.verr m') => Except.ok (some (Obj.verr m'), env'')
          | _ => runStmtsBlock (evalStmt f) post r env'') = _
      rw [hs]
  · intro pre s post env env₁ env₂ m hc hs
    constructor
    · show runStmtsProgram (evalStmt f) (pre ++ s :: post) none env = _
      rw [runStmtsProgram_clean_skip f hc s post none]
      show (match evalStmt f s env₁ with
        | Except.error c => Except.error c
        | Except.ok (r, env'') =>
          match r with
          | some (Obj.vret v') => Except.ok (some v', env'')
          | some (Obj.verr m') => Except.ok (some (Obj.verr m'), env'')
          | _ => runStmtsProgram (evalStmt f) post r env'') = _
      rw [hs]
    · show runStmtsBlock (evalStmt f) (pre ++ s :: post) none env = _
      rw [runStmtsBlock_clean_skip f hc s post none]
      show (match evalStmt f s env₁ with
        | Except.error c => Except.error c
        | Except.ok (r, env'') =>
          match r with
          | some (Obj.vret v') => Except.ok (some (Obj.vret v'), env'')
          | some (Obj.verr m') => Except.ok (some (Obj.verr m'), env'')
          | _ => runStmtsBlock (evalStmt f) post r env'') = _
      rw [hs]
  · intro params body fenv nm args ext env₃ v hext hbody
    show (match extFuncEnv params args fenv with
      | Except.error c => Except.error c
      | Except.ok ext' =>
        match evalBlock f body ext' with
        | Except.error c => Except.error c
        | Except.ok (none, _) => Except.error Crash.assertFail
        | Except.ok (some v', _) => Except.ok (unwrapReturn v')) = _
    rw [hext]
    show (match evalBlock f body ext with
      | Except.error c => Except.error c
      | Except.ok (none, _) => Except.error Crash.assertFail
      | Except.ok (some v', _) => Except.ok (unwrapReturn v')) = _
    rw [hbody]
    rfl

/-- C2 witness: a concrete three-statement sequence whose middle
statement returns `7`. -/
theorem claim_C2_witness :
    evalProgram 4 [Stmt.exprS (some (Expr.intLit (some 1))),
        Stmt.retS (some (Expr.intLit (some 7))), Stmt.exprS none] env0
      = .ok (some (Obj.vint 7), env0)
    ∧ evalBlock 4 (Block.mk [Stmt.exprS (some (Expr.intLit (some 1))),
        Stmt.retS (some (Expr.intLit (some 7))), Stmt.exprS none]) env0
      = .ok (some (Obj.vret (Obj.vint 7)), env0) := by
  have hclean : CleanSeq 3 [Stmt.exprS (some (Expr.intLit (some 1)))] env0 env0 :=
    CleanSeq.cons rfl
      (fun v h => by injection h with h'; exact Obj.noConfusion h')
      (fun m h => by injection h with h'; exact Obj.noConfusion h')
      (CleanSeq.nil env0)
  exact (claim_C2 3).1 [Stmt.exprS (some (Expr.intLit (some 1)))]
    (Stmt.retS (some (Expr.intLit (some 7)))) [Stmt.exprS none]
    env0 env0 env0 (Obj.vint 7) hclean rfl

/-- C3: exactly the `NULL` and `FALSE` sentinels are falsy; an `If`
whose condition evaluates to `Integer(0)` or to the empty string runs
the then-block; a falsy condition with no else-block yields `NULL`;
and `!x` on an integer is `TRUE` exactly when the value is zero, while
on any non-integer it negates truthiness. -/
theorem claim_C3 (f : Nat) :
    (∀ o : Obj, isTruthy o = false ↔ (o = Obj.vnull ∨ o = Obj.vbool false))
    ∧ (∀ (c : Expr) (cons : Block) (alt : Option Block) (env env' : Env),
        (evalExpr f c env = .ok (some (.vint 0), env')
          ∨ evalExpr f c env = .ok (some (.vstr ""), env')) →
        evalExpr (f + 1) (.ifE (some c) (some cons) alt) env
          = evalBlock f cons env')
    ∧ (∀ (c : Expr) (cons : Block) (env env' : Env) (v : Obj),
        evalExpr f c env = .ok (some v, env') → isTruthy v = false →
        evalExpr (f + 1) (.ifE (some c) (some cons) none) env
          = .ok (some .vnull, env'))
    ∧ (∀ n : Int, evalBang (.vint n) = .vbool (decide (n = 0)))
    ∧ (∀ o : Obj, (∀ n : Int, o ≠ .vint n) → evalBang o = .vbool (!isTruthy o)) := by
  refine ⟨?_, ?_, ?_, ?_, ?_⟩
  · intro o
    cases o with
    | vbool b => cases b <;> simp [isTruthy]
    | vnull => simp [isTruthy]
    | vint n => simp [isTruthy]
    | vstr s => simp [isTruthy]
    | vret o => simp [isTruthy]
    | verr m => simp [isTruthy]
    | vfun p b e n => simp [isTruthy]
    | vbuiltin => simp [isTruthy]
  · intro c cons alt env env' hc
    rcases hc with hc | hc <;> simp [evalExpr, hc, isTruthy]
  · intro c cons env env' v hc hv
    simp [evalExpr, hc, hv]
  · intro n
    by_cases h : n = 0 <;> simp [evalBang, h]
  · intro o ho
    cases o with
    | vint n => exact absurd rfl (ho n)
    | vbool b => cases b <;> rfl
    | vnull => rfl
    | vstr s => rfl
    | vret o => rfl
    | verr m => rfl
    | vfun p b e n => rfl
    | vbuiltin => rfl

/-- C3 witness: an `If` with condition `Integer(0)` runs its then-block,
and `!0` is `TRUE`. -/
theorem claim_C3_witness :
    evalExpr 2 (Expr.ifE (some (Expr.intLit (some 0)))
        (some (Block.mk [Stmt.exprS (some (Expr.intLit (some 5)))])) none) env0
      = evalBlock 1 (Block.mk [Stmt.exprS (some (Expr.intLit (some 5)))]) env0
    ∧ evalBang (Obj.vint 0) = Obj.vbool true := by
  constructor
  · exact (claim_C3 1).2.1 (Expr.intLit (some 0))
      (Block.mk [Stmt.exprS (some (Expr.intLit (some 5)))]) none env0 env0
      (Or.inl rfl)
  · have h := (claim_C3 1).2.2.2.1 0
    simpa using h

/-- C4 counterexample: `true == 5` has differing runtime types not
covered by the integer-integer or string-on-the-left rules, yet it
evaluates to the boolean `FALSE` (identity comparison), not to
`Error("Type mismatch: BOOLEAN == INTEGER")` as the claim states. -/
theorem claim_C4_counterexample :
    evalExpr 3 (Expr.infixE (Expr.boolLit (some true)) "=="
        (some (Expr.intLit (some 5)))) env0
      = .ok (some (Obj.vbool false), env0) := rfl

/-- C4 (amended): for operands not covered by the integer-integer or
string-on-the-left rules, `==`/`!=` always use identity comparison —
even when the types differ, in which case identity is `false` so `==`
yields `FALSE` and `!=` yields `TRUE`; a `Type mismatch` error is
produced only for operators other than `==`/`!=` when the types
differ. -/
theorem claim_C4_amended (l r : Obj)
    (h1 : ¬(objType l = .INTEGER ∧ objType r = .INTEGER))
    (h2 : ¬(objType l = .STRING ∧ (objType r = .STRING ∨ objType r = .INTEGER)))
    (hdiff : objType l ≠ objType r) :
    evalInfixExpr "==" l r = .ok (.vbool false)
    ∧ evalInfixExpr "!=" l r = .ok (.vbool true)
    ∧ objIs l r = false
    ∧ (∀ op : String, op ≠ "==" → op ≠ "!=" →
        evalInfixExpr op l r = .ok (.verr ("Type mismatch: "
          ++ (objType l).tname ++ " " ++ op ++ " " ++ (objType r).tname))) := by
  have his := objIs_cross hdiff
  refine ⟨?_, ?_, his, ?_⟩
  · rw [evalInfixExpr_fallback "==" l r h1 h2, if_pos rfl, his]
    rfl
  · rw [evalInfixExpr_fallback "!=" l r h1 h2,
      if_neg (by decide : ¬("!=" = "==")), if_pos rfl, his]
    rfl
  · intro op hne1 hne2
    rw [evalInfixExpr_fallback op l r h1 h2, if_neg hne1, if_neg hne2,
      if_pos hdiff]

/-- C4 witness: `true == 5` is `FALSE`, and `true + 5` is the type
mismatch error. -/
theorem claim_C4_witness :
    evalInfixExpr "==" (Obj.vbool true) (Obj.vint 5) = .ok (Obj.vbool false)
    ∧ evalInfixExpr "+" (Obj.vbool true) (Obj.vint 5)
      = .ok (.verr "Type mismatch: BOOLEAN + INTEGER") := by
  have h := claim_C4_amended (Obj.vbool true) (Obj.vint 5)
    (by decide) (by decide) (by decide)
  exact ⟨h.1, h.2.2.2 "+" (by decide) (by decide)⟩

/-- C5 counterexample (negation of the claim): there is no source
program and no fuel for which `parse_program` produces an AST
containing an `Infix` node with operator `=`: `ASSIGN` has no
precedence entry, so the Pratt loop's `prec < peek_precedence` guard
(with `prec ≥ LOWEST`) never lets the registered `ASSIGN` infix parser
fire. -/
theorem claim_C5_counterexample :
    ¬ ∃ (f : Nat) (src : List Char), noAsgSL (parseProgram f src).1 = false := by
  rintro ⟨f, src, h⟩
  rw [parseProgram_noAsg f src] at h
  exact Bool.noConfusion h

/-- C5 (amended): `ASSIGN` is indeed registered as an infix parser, but
its precedence defaults to `LOWEST`, so no parse of any source ever
produces an `Infix` node with operator `=`; were such a node evaluated
(for instance on integer operands), it would fall through to the
type-error path (`Invalid operation: INTEGER = INTEGER`). -/
theorem claim_C5_amended :
    infixFns TokenType.ASSIGN = some InfixTag.binOp
    ∧ precedenceOf TokenType.ASSIGN = precLOWEST
    ∧ (∀ (f : Nat) (src : List Char), noAsgSL (parseProgram f src).1 = true)
    ∧ (∀ a b : Int, evalInfixExpr "=" (.vint a) (.vint b)
        = .ok (.verr "Invalid operation: INTEGER = INTEGER")) :=
  ⟨rfl, rfl, parseProgram_noAsg, fun _ _ => rfl⟩

/-- C6 counterexample: in `1 and 2` the word `and` does not parse as an
identifier — it lexes to the same token kind as `&&` and triggers the
infix parser, producing an `Infix` node with operator `and`; evaluating
it yields `Invalid operation: INTEGER and INTEGER`, not an
`Identifier not found` error. -/
theorem claim_C6_counterexample :
    (parseProgram 20 "1 and 2".data).1
      = [Stmt.exprS (some (Expr.infixE (Expr.intLit (some 1)) "and"
          (some (Expr.intLit (some 2)))))]
    ∧ evalProgram 20 (parseProgram 20 "1 and 2".data).1 env0
      = .ok (some (.verr "Invalid operation: INTEGER and INTEGER"), env0) :=
  ⟨rfl, rfl⟩

/-- C6 (amended): the word forms `and`, `or`, `xor` lex to the same
token kinds as the symbolic `&&`, `||`, `^`, so in infix position they
trigger the registered infix parser and parse as `Infix` nodes whose
operator is the word literal; evaluating such a node on integers
produces an `Invalid operation` error (the evaluator knows no such
operator), not an `Identifier not found` error. -/
theorem claim_C6_amended :
    lookupTokenType "and" = TokenType.AND
    ∧ lookupTokenType "or" = TokenType.OR
    ∧ lookupTokenType "xor" = TokenType.XOR
    ∧ infixFns TokenType.AND = some InfixTag.binOp
    ∧ infixFns TokenType.OR = some InfixTag.binOp
    ∧ infixFns TokenType.XOR = some InfixTag.binOp
    ∧ (parseProgram 20 "1 or 2".data).1
      = [Stmt.exprS (some (Expr.infixE (Expr.intLit (some 1)) "or"
          (some (Expr.intLit (some 2)))))]
    ∧ (parseProgram 20 "1 xor 2".data).1
      = [Stmt.exprS (some (Expr.infixE (Expr.intLit (some 1)) "xor"
          (some (Expr.intLit (some 2)))))]
    ∧ (∀ a b : Int, evalInfixExpr "and" (.vint a) (.vint b)
        = .ok (.verr "Invalid operation: INTEGER and INTEGER"))
    ∧ (∀ a b : Int, evalInfixExpr "or" (.vint a) (.vint b)
        = .ok (.verr "Invalid operation: INTEGER or INTEGER"))
    ∧ (∀ a b : Int, evalInfixExpr "xor" (.vint a) (.vint b)
        = .ok (.verr "Invalid operation: INTEGER xor INTEGER")) :=
  ⟨rfl, rfl, rfl, rfl, rfl, rfl, rfl, rfl,
    fun _ _ => rfl, fun _ _ => rfl, fun _ _ => rfl⟩

/-- C7: `&&` and `||` are not short-circuited: the evaluation of an
`Infix` node always evaluates the left operand and then the right
operand before dispatching the operator, regardless of the left value;
concretely, `false && function g(){}` still evaluates the right
operand, observably binding `g` into the environment. -/
theorem claim_C7 (f : Nat) (l r : Expr) (op : String) (env : Env)
    (_hop : op = "&&" ∨ op = "||") :
    evalExpr (f + 1) (.infixE l op (some r)) env =
      (match evalExpr f l env with
       | Except.error c => Except.error c
       | Except.ok (lv?, env₁) =>
         match evalExpr f r env₁ with
         | Except.error c => Except.error c
         | Except.ok (rv?, env₂) =>
           match lv?, rv? with
           | some lv, some rv =>
             match evalInfixExpr op lv rv with
             | Except.error c => Except.error c
             | Except.ok v => Except.ok (some v, env₂)
           | _, _ => Except.error Crash.assertFail)
    ∧ evalExpr (f + 2) (.infixE (.boolLit (some false)) "&&"
        (some (.funcE [] (some (Block.mk [])) (some "g")))) env
      = .ok (some (.verr "Type mismatch: BOOLEAN && FUNCTION"),
          envSet env "g" (.vfun [] (Block.mk []) env "g")) :=
  ⟨rfl, rfl⟩

/-- C7 witness: the falsy left operand does not suppress evaluation of
the right operand. -/
theorem claim_C7_witness :
    evalExpr 2 (Expr.infixE (Expr.boolLit (some false)) "&&"
        (some (Expr.funcE [] (some (Block.mk [])) (some "g")))) env0
      = .ok (some (.verr "Type mismatch: BOOLEAN && FUNCTION"),
          envSet env0 "g" (.vfun [] (Block.mk []) env0 "g")) :=
  (claim_C7 0 (Expr.intLit (some 1)) (Expr.intLit (some 2)) "&&" env0
    (Or.inl rfl)).2

/-- C8: integer division is Python floor division: for a nonzero
divisor, `a / b` evaluates to `Int.fdiv a b`, which for a positive
divisor is characterised by `b * q ≤ a < b * (q + 1)` (rounding toward
negative infinity); in particular `-7 / 2` evaluates to `-4`. -/
theorem claim_C8 (f : Nat) (env : Env) (a b : Int) (hb : b ≠ 0) :
    evalExpr (f + 2) (.infixE (.intLit (some a)) "/"
        (some (.intLit (some b)))) env
      = .ok (some (.vint (Int.fdiv a b)), env)
    ∧ (0 < b → b * Int.fdiv a b ≤ a ∧ a < b * (Int.fdiv a b + 1))
    ∧ evalExpr 4 (.infixE (.prefixE "-" (some (.intLit (some 7)))) "/"
        (some (.intLit (some 2)))) env = .ok (some (.vint (-4)), env) := by
  refine ⟨?_, ?_, rfl⟩
  · have hq : pyFloorDiv a b = .ok (Int.fdiv a b) := by
      unfold pyFloorDiv
      rw [if_neg hb]
    show (match (match pyFloorDiv a b with
                 | Except.error c => Except.error c
                 | Except.ok q => Except.ok (Obj.vint q)) with
          | Except.error c => Except.error c
          | Except.ok v => Except.ok (some v, env)) = _
    rw [hq]
  · intro hbpos
    have hfd : Int.fdiv a b = a / b := Int.fdiv_eq_ediv a (Int.le_of_lt hbpos)
    have h2 := Int.ediv_add_emod a b
    have h3 := Int.emod_nonneg a hb
    have h4 := Int.emod_lt_of_pos a hbpos
    rw [hfd]
    constructor
    · linarith
    · have hmul : b * (a / b + 1) = b * (a / b) + b := by ring
      linarith

/-- C8 witness: `-7 / 2` evaluates to `-4`. -/
theorem claim_C8_witness :
    (2 : Int) ≠ 0
    ∧ evalExpr 2 (Expr.infixE (Expr.intLit (some (-7))) "/"
        (some (Expr.intLit (some 2)))) env0 = .ok (some (.vint (-4)), env0) := by
  refine ⟨by decide, ?_⟩
  have h := (claim_C8 0 env0 (-7) 2 (by decide)).1
  have hv : Int.fdiv (-7) 2 = -4 := by decide
  rw [hv] at h
  exact h

/-- C9: after any `n ≥ len(source)` calls to `next_token` the next call
returns an `EOF` token (each call consumes at least one source
position, and the empty look-ahead character always classifies as
`EOF`); in particular the call after exactly `len(source)` calls, and
every further call, returns `EOF`. -/
theorem claim_C9 (src : List Char) (n : Nat) (h : src.length ≤ n) :
    tokenAt src n = ⟨TokenType.EOF, ""⟩ := by
  have hsrc := lexIter_src src n
  have hpos := lexIter_pos src n
  rw [tokenAt]
  apply nextToken_eof
  rw [hsrc]
  omega

/-- C9 witness: for the three-character source `a+b`, the fourth call
to `next_token` returns `EOF`. -/
theorem claim_C9_witness :
    "a+b".data.length ≤ 3
    ∧ tokenAt "a+b".data 3 = ⟨TokenType.EOF, ""⟩ :=
  ⟨by decide, claim_C9 "a+b".data 3 (by decide)⟩

/-- C10: an `Error` produced by the left operand of an infix expression
is not propagated; it is fed into infix dispatch as an ordinary value,
so with a right operand of any other type the result is a fresh
`Type mismatch: ERROR <op> <R>` error whose message has lost the
original one — except for `==`/`!=`, which compare by identity (the
differing types make the identity comparison false, so `==` yields
`FALSE` and `!=` yields `TRUE` instead of an error). -/
theorem claim_C10 (f : Nat) (l r : Expr) (op msg : String)
    (env env₁ env₂ : Env) (rv : Obj)
    (hl : evalExpr f l env = .ok (some (.verr msg), env₁))
    (hr : evalExpr f r env₁ = .ok (some rv, env₂))
    (hrt : objType rv ≠ .ERROR) :
    (op ≠ "==" → op ≠ "!=" →
      evalExpr (f + 1) (.infixE l op (some r)) env
        = .ok (some (.verr ("Type mismatch: ERROR " ++ op ++ " "
            ++ (objType rv).tname)), env₂))
    ∧ evalExpr (f + 1) (.infixE l "==" (some r)) env
        = .ok (some (.vbool false), env₂)
    ∧ evalExpr (f + 1) (.infixE l "!=" (some r)) env
        = .ok (some (.vbool true), env₂) := by
  have h1 : ¬(objType (Obj.verr msg) = .INTEGER ∧ objType rv = .INTEGER) :=
    fun hcon => absurd hcon.1
      (show ¬(ObjectType.ERROR = ObjectType.INTEGER) from by decide)
  have h2 : ¬(objType (Obj.verr msg) = .STRING
      ∧ (objType rv = .STRING ∨ objType rv = .INTEGER)) :=
    fun hcon => absurd hcon.1
      (show ¬(ObjectType.ERROR = ObjectType.STRING) from by decide)
  have hdiff : objType (Obj.verr msg) ≠ objType rv := by
    intro h
    apply hrt
    rw [← h]
    rfl
  have his := objIs_cross hdiff
  refine ⟨?_, ?_, ?_⟩
  · intro hne1 hne2
    simp only [evalExpr, hl, hr]
    rw [evalInfixExpr_fallback op _ _ h1 h2, if_neg hne1, if_neg hne2,
      if_pos hdiff]
    rfl
  · simp only [evalExpr, hl, hr]
    rw [evalInfixExpr_fallback "==" _ _ h1 h2, if_pos rfl, his]
    rfl
  · simp only [evalExpr, hl, hr]
    rw [evalInfixExpr_fallback "!=" _ _ h1 h2,
      if_neg (by decide : ¬("!=" = "==")), if_pos rfl, his]
    rfl

/-- C10 witness: `q + 3` with unknown `q` loses the original
`Identifier not found` message inside a fresh type mismatch, and
`q == 3` yields `FALSE`. -/
theorem claim_C10_witness :
    evalExpr 2 (Expr.infixE (Expr.ident "q") "+"
        (some (Expr.intLit (some 3)))) env0
      = .ok (some (.verr "Type mismatch: ERROR + INTEGER"), env0)
    ∧ evalExpr 2 (Expr.infixE (Expr.ident "q") "=="
        (some (Expr.intLit (some 3)))) env0
      = .ok (some (Obj.vbool false), env0) := by
  have h := claim_C10 1 (Expr.ident "q") (Expr.intLit (some 3)) "+"
    "Identifier not found: q" env0 env0 env0 (Obj.vint 3) rfl rfl (by decide)
  exact ⟨h.1 (by decide) (by decide), h.2.1⟩

end MagNet
